import Mathlib

/-!
# Cardinal: manager credentials and the access-control middleware

A shallow embedding of `src/manager.go` (the manager handlers) and of the three
guards of `src/router.go` (`TeamAuthRequired`, `AdminAuthRequired`,
`ManagerRequired`), together with the part of the gorm (jinzhu/gorm v1) and gin
behaviour those functions rely on.

Conventions of the embedding

* A table is the list of its rows in scan order, the order of their primary keys.
  Rows carry the four columns of `gorm.Model`; a row whose `DeletedAt` is set is
  soft-deleted and invisible to every query, update and delete that gorm issues for a
  model with that column.
* Times are natural numbers, `0` being the zero time.
* Column comparison is equality of values.
* `RowsAffected` of an update or delete is the number of rows its condition selects.
* A transaction is the value of the database after the statements run on it:
  `Rollback` keeps the database the handler started with, `Commit` installs the new one.
* Primary keys come from AUTO_INCREMENT, so a stored row has a non-zero `ID`; a theorem
  that needs this states it, and `primary_keys_invariant` shows the operations keep it.
* What the handlers draw from outside the two source files (the password helpers, the
  localisation table, the random generators, the clock) is collected in `Env`.
-/

namespace Cardinal

set_option linter.dupNamespace false

/-! ## Data model -/

/-- The embedded `gorm.Model`: primary key and the three bookkeeping times. -/
structure Model where
  ID : Nat
  CreatedAt : Nat
  UpdatedAt : Nat
  DeletedAt : Option Nat
deriving DecidableEq, Repr

/-- Manager is the gorm model for table `managers` (manager.go, lines 12-19).
`IsCheck` is the column `AdminAuthRequired` reads as `managerData.IsCheck`
(router.go, line 269). -/
structure Manager extends Model where
  Name : String
  Password : String
  Token : String
  IsCheck : Bool
deriving DecidableEq, Repr

/-- Token is the gorm model for table `tokens`.  Its declaration lies outside the two
source files; the fields are the ones `TeamAuthRequired` uses (router.go, lines
231-241: `ID`, `TeamID`, `Token`), `ID` coming with the other columns of `gorm.Model`.
A table whose rows all have `DeletedAt` unset behaves as one without that column. -/
structure Token extends Model where
  TeamID : Nat
  Token : String
deriving DecidableEq, Repr

/-- A row written by `NewLog`. -/
structure Log where
  Level : Nat
  Kind : String
  Content : String
deriving DecidableEq, Repr

/-- The database behind `s.Mysql`. -/
structure DB where
  managers : List Manager
  tokens : List Token
  logs : List Log
deriving DecidableEq, Repr

/-- The receiver of every handler. -/
structure Service where
  Mysql : DB
deriving DecidableEq, Repr

/-- The zero value of `Manager` (`var manager Manager`, `Manager{}`). -/
def Manager.zero : Manager :=
  { ID := 0, CreatedAt := 0, UpdatedAt := 0, DeletedAt := none,
    Name := "", Password := "", Token := "", IsCheck := false }

/-- The zero value of `Token`. -/
def Token.zero : Cardinal.Token :=
  { ID := 0, CreatedAt := 0, UpdatedAt := 0, DeletedAt := none, TeamID := 0, Token := "" }

/-! ## gorm -/

/-- Soft-delete scope: gorm adds `deleted_at IS NULL` to every statement on a model
that has a `DeletedAt` column. -/
def Model.visible (m : Model) : Bool := m.DeletedAt.isNone

/-- The condition `Where(&Manager{...})`: a struct condition compares only the fields of the
condition that are not blank (zero-valued); a condition with every field blank
selects every row. -/
def Manager.whereStruct (cond row : Manager) : Bool :=
  (cond.ID == 0 || row.ID == cond.ID) &&
  (cond.CreatedAt == 0 || row.CreatedAt == cond.CreatedAt) &&
  (cond.UpdatedAt == 0 || row.UpdatedAt == cond.UpdatedAt) &&
  (cond.DeletedAt.isNone || row.DeletedAt == cond.DeletedAt) &&
  (cond.Name == "" || row.Name == cond.Name) &&
  (cond.Password == "" || row.Password == cond.Password) &&
  (cond.Token == "" || row.Token == cond.Token) &&
  (cond.IsCheck == false || row.IsCheck == cond.IsCheck)

/-- The condition `Where(&Token{...})`, as `Manager.whereStruct`. -/
def Token.whereStruct (cond row : Cardinal.Token) : Bool :=
  (cond.ID == 0 || row.ID == cond.ID) &&
  (cond.CreatedAt == 0 || row.CreatedAt == cond.CreatedAt) &&
  (cond.UpdatedAt == 0 || row.UpdatedAt == cond.UpdatedAt) &&
  (cond.DeletedAt.isNone || row.DeletedAt == cond.DeletedAt) &&
  (cond.TeamID == 0 || row.TeamID == cond.TeamID) &&
  (cond.Token == "" || row.Token == cond.Token)

/-- The call `Find(&dest)` with a struct destination: gorm scans every returned row into the
same struct, one after the other, so the destination ends as the last returned row and
keeps its initial (zero) value when no row is returned. -/
def scanStruct {α : Type} (dest : α) (rows : List α) : α :=
  rows.foldl (fun _ row => row) dest

/-- The rows a struct condition selects in `managers`. -/
def DB.selectManagers (db : DB) (cond : Manager) : List Manager :=
  db.managers.filter (fun m => m.visible && cond.whereStruct m)

/-- The rows a struct condition selects in `tokens`. -/
def DB.selectTokens (db : DB) (cond : Token) : List Token :=
  db.tokens.filter (fun k => k.visible && cond.whereStruct k)

/-- The query `db.Where(&Manager{...}).Find(&manager)` with `var manager Manager`. -/
def DB.findManager (db : DB) (cond : Manager) : Manager :=
  scanStruct Manager.zero (db.selectManagers cond)

/-- The query `db.Where(&Token{...}).Find(&tokenData)` with `var tokenData Token`. -/
def DB.findToken (db : DB) (cond : Token) : Token :=
  scanStruct Token.zero (db.selectTokens cond)

/-- A statement's outcome inside a transaction: the database it leaves and its
`RowsAffected`. -/
structure Tx where
  db : DB
  RowsAffected : Nat
deriving DecidableEq, Repr

/-- The struct passed to `Update`/`Updates` has no non-blank field: gorm then has
nothing to update and skips the statement. -/
def Manager.isBlank (v : Manager) : Bool :=
  v.ID == 0 && v.CreatedAt == 0 && v.UpdatedAt == 0 && v.DeletedAt.isNone &&
  v.Name == "" && v.Password == "" && v.Token == "" && v.IsCheck == false

/-- The row after `Update`/`Updates` with a struct: the non-blank fields of the struct
are written, the others kept, and `updated_at` is set to the current time. -/
def Manager.assign (v row : Manager) (now : Nat) : Manager :=
  { ID := if v.ID == 0 then row.ID else v.ID,
    CreatedAt := if v.CreatedAt == 0 then row.CreatedAt else v.CreatedAt,
    UpdatedAt := now,
    DeletedAt := if v.DeletedAt.isNone then row.DeletedAt else v.DeletedAt,
    Name := if v.Name == "" then row.Name else v.Name,
    Password := if v.Password == "" then row.Password else v.Password,
    Token := if v.Token == "" then row.Token else v.Token,
    IsCheck := if v.IsCheck == false then row.IsCheck else v.IsCheck }

/-- The statement `tx.Model(&Manager{}).Where(&cond).Updates(&v)` (and `Update(&v)`, which gorm
treats alike for a single struct argument). -/
def DB.updatesManagers (db : DB) (cond v : Manager) (now : Nat) : Tx :=
  if v.isBlank then { db := db, RowsAffected := 0 }
  else
    { db := { db with managers := db.managers.map (fun m =>
        if m.visible && cond.whereStruct m then v.assign m now else m) },
      RowsAffected := (db.selectManagers cond).length }

/-- The key AUTO_INCREMENT gives the next inserted row. -/
def DB.nextManagerID (db : DB) : Nat :=
  (db.managers.map (fun m => m.ID)).foldr max 0 + 1

/-- The statement `tx.Create(&manager)`: the row is appended with a fresh primary key and both
creation times set; one row is affected. -/
def DB.createManager (db : DB) (v : Manager) (now : Nat) : Tx :=
  { db := { db with managers := db.managers ++
      [{ v with ID := db.nextManagerID, CreatedAt := now, UpdatedAt := now }] },
    RowsAffected := 1 }

/-- The statement `tx.Model(&Manager{}).Where("id = ?", id).Delete(&Manager{})`: `Manager` has a
`DeletedAt` column, so gorm sets `deleted_at` on the visible rows whose id equals the
integer `id`. -/
def DB.deleteManagersWhereID (db : DB) (id : Int) (now : Nat) : Tx :=
  { db := { db with managers := db.managers.map (fun m =>
      if m.visible && ((m.ID : Int) == id) then { m with DeletedAt := some now } else m) },
    RowsAffected := (db.managers.filter (fun m => m.visible && ((m.ID : Int) == id))).length }

/-- The statement `db.Model(&Manager{}).Where("token = ?", token).Delete(&Token{})`: gorm takes the
table of a delete from the value handed to `Delete`, here `&Token{}`, so the statement
runs on table `tokens`; `Model(&Manager{})` does not set the table. -/
def DB.deleteTokensWhereToken (db : DB) (token : String) (now : Nat) : Tx :=
  { db := { db with tokens := db.tokens.map (fun k =>
      if k.visible && (k.Token == token) then { k with DeletedAt := some now } else k) },
    RowsAffected := (db.tokens.filter (fun k => k.visible && (k.Token == token))).length }

/-! ## gin -/

/-- A value stored in the request context by `c.Set`. -/
inductive Value where
  | uint (n : Nat)
  | bool (b : Bool)
  | string (s : String)
  | manager (m : Manager)
deriving DecidableEq, Repr

/-- The JSON envelope of every response: `error` is the numeric code, `msg` the
localised message, `data` the payload of a success. -/
structure H where
  error : Nat
  msg : String
  data : Option String
deriving DecidableEq, Repr

/-- The body of `POST /manager/login` and `POST /manager/manager` once decoded:
`ManagerLoginForm` (manager.go, lines 21-25) and `InputForm` (lines 78-81) have the
same two fields; a field absent from the JSON decodes to the empty string. -/
structure ManagerLoginForm where
  Name : String
  Password : String
deriving DecidableEq, Repr

/-- The part of `gin.Context` the handlers and guards use: request headers, query
parameters, the JSON body (`none` when it does not decode), the keys set with `c.Set`,
the response written with `c.JSON`, and whether `c.Abort` was called. -/
structure Context where
  Header : List (String × String)
  Query : List (String × String)
  Body : Option ManagerLoginForm
  Keys : List (String × Value)
  Written : Option (Nat × H)
  Aborted : Bool
deriving DecidableEq, Repr

/-- The method `c.GetHeader(key)`: the header value, empty when the header is absent. -/
def Context.GetHeader (c : Context) (key : String) : String :=
  (c.Header.lookup key).getD ""

/-- The method `c.GetQuery(key)`: the value and whether the parameter is present. -/
def Context.GetQuery (c : Context) (key : String) : Option String :=
  c.Query.lookup key

/-- The method `c.Set(key, value)`: the latest value set under a key is the one read. -/
def Context.Set (c : Context) (key : String) (value : Value) : Context :=
  { c with Keys := (key, value) :: c.Keys }

/-- The method `c.GetString(key)`: the string stored under the key, empty otherwise. -/
def Context.GetString (c : Context) (key : String) : String :=
  match c.Keys.lookup key with
  | some (Value.string v) => v
  | _ => ""

/-- The method `c.GetBool(key)`: the boolean stored under the key, false otherwise. -/
def Context.GetBool (c : Context) (key : String) : Bool :=
  match c.Keys.lookup key with
  | some (Value.bool b) => b
  | _ => false

/-- The method `c.JSON(code, obj)`: the response of the request. -/
def Context.JSON (c : Context) (r : Nat × H) : Context :=
  { c with Written := some r }

/-- The method `c.Abort()`: no handler that is still pending on the chain is called. -/
def Context.Abort (c : Context) : Context :=
  { c with Aborted := true }

/-- The method `c.BindJSON(&formData)` for a form whose two fields are tagged
`binding:"required"`: it fails when the body does not decode or a field is empty. -/
def Context.BindJSON (c : Context) : Option ManagerLoginForm :=
  match c.Body with
  | none => none
  | some formData =>
    if formData.Name == "" || formData.Password == "" then none else some formData

/-- A gin handler acts on the service (through `s.Mysql`) and on the context. -/
abbrev HandlerFunc := Service → Context → Service × Context

/-- The chain `group.Use(m1, ..., mn)` followed by a route handler: the guards run in order and
each hands over to what follows with `c.Next()`. -/
def Use (guards : List (HandlerFunc → HandlerFunc)) (handler : HandlerFunc) : HandlerFunc :=
  guards.foldr (fun guard next => guard next) handler

/-! ## What the handlers take from outside the source files -/

/-- The helpers `utils.AddSalt`, `utils.CheckPassword` and `locales.I18n.T` as functions;
`GenerateToken`, `randstr` and `now` are the values `utils.GenerateToken()`,
`randstr.String(16)` and the clock give during the call; `NORMAL` is the log level
constant. -/
structure Env where
  AddSalt : String → String
  CheckPassword : String → String → Bool
  T : String → String → List (String × String) → String
  GenerateToken : String
  randstr : String
  now : Nat
  NORMAL : Nat

/-- Modelled from the spec: `utils.MakeErrJSON` is declared outside the source files;
an error response carries an HTTP status plus a numeric error code plus a localised
message (section 6). -/
def MakeErrJSON (httpStatusCode errCode : Nat) (msg : String) : Nat × H :=
  (httpStatusCode, { error := errCode, msg := msg, data := none })

/-- Modelled from the spec: `utils.MakeSuccessJSON` is declared outside the source
files; a success response carries an HTTP 2xx status and a payload (section 6). -/
def MakeSuccessJSON (data : String) : Nat × H :=
  (200, { error := 0, msg := "success", data := some data })

/-- Modelled from the spec: `NewLog` is declared outside the source files; it is one
of the data-access wrappers of section 1, storing the entry in table `logs` and
touching no credential row. -/
def Service.NewLog (s : Service) (level : Nat) (kind content : String) : Service :=
  { s with Mysql := { s.Mysql with
      logs := s.Mysql.logs ++ [{ Level := level, Kind := kind, Content := content }] } }

/-- Decimal digits read left to right into an accumulator. -/
def parseDigits : List Char → Nat → Option Nat
  | [], acc => some acc
  | ch :: rest, acc =>
    if ch.isDigit then parseDigits rest (acc * 10 + (ch.toNat - 48)) else none

/-- The parser `strconv.Atoi`: an optional sign, then at least one decimal digit and nothing else,
the value within the range of a 64-bit `int`. -/
def Atoi (str : String) : Option Int :=
  match str.data with
  | [] => none
  | ch :: rest =>
    if ch == '-' then
      if rest.isEmpty then none
      else (parseDigits rest 0).bind (fun n =>
        if n ≤ 2 ^ 63 then some (-(n : Int)) else none)
    else if ch == '+' then
      if rest.isEmpty then none
      else (parseDigits rest 0).bind (fun n =>
        if n < 2 ^ 63 then some (n : Int) else none)
    else (parseDigits (ch :: rest) 0).bind (fun n =>
        if n < 2 ^ 63 then some (n : Int) else none)

/-- The Go conversion `uint(id)` of an `int` on a 64-bit platform. -/
def uint (id : Int) : Nat := (id % (2 : Int) ^ 64).toNat

/-! ## manager.go -/

/-- ManagerLogin is manager login handler (manager.go, lines 27-56). -/
def Service.ManagerLogin (s : Service) (e : Env) (c : Context) : Service × (Nat × H) :=
  match c.BindJSON with
  | none => (s, MakeErrJSON 400 40000 (e.T (c.GetString "lang") "general.error_payload" []))
  | some formData =>
    let manager := s.Mysql.findManager { Manager.zero with Name := formData.Name }
    if manager.Name != "" && e.CheckPassword formData.Password manager.Password then
      let token := e.GenerateToken
      let tx := s.Mysql.updatesManagers { Manager.zero with Name := manager.Name }
        { Manager.zero with Token := token } e.now
      if tx.RowsAffected != 1 then
        (s, MakeErrJSON 500 50000 (e.T (c.GetString "lang") "general.server_error" []))
      else
        ({ s with Mysql := tx.db }, MakeSuccessJSON token)
    else
      (s, MakeErrJSON 403 40300 (e.T (c.GetString "lang") "manager.login_error" []))

/-- ManagerLogout is the manager logout handler (manager.go, lines 58-67).  The
statement runs outside a transaction and its result is not inspected. -/
def Service.ManagerLogout (s : Service) (e : Env) (c : Context) : Service × (Nat × H) :=
  let token := c.GetHeader "Authorization"
  let s1 := if token != "" then
      { s with Mysql := (s.Mysql.deleteTokensWhereToken token e.now).db }
    else s
  (s1, MakeSuccessJSON (e.T (c.GetString "lang") "manager.logout_success" []))

/-- NewManager is add a new manager handler (manager.go, lines 76-115). -/
def Service.NewManager (s : Service) (e : Env) (c : Context) : Service × (Nat × H) :=
  match c.BindJSON with
  | none => (s, MakeErrJSON 400 40000 (e.T (c.GetString "lang") "general.error_payload" []))
  | some formData =>
    let checkManager := s.Mysql.findManager { Manager.zero with Name := formData.Name }
    if checkManager.ID != 0 then
      (s, MakeErrJSON 400 40001 (e.T (c.GetString "lang") "manager.repeat" []))
    else
      let manager := { Manager.zero with
        Name := formData.Name, Password := e.AddSalt formData.Password }
      let tx := s.Mysql.createManager manager e.now
      if tx.RowsAffected != 1 then
        (s, MakeErrJSON 500 50000 (e.T (c.GetString "lang") "manager.post_error" []))
      else
        let s1 : Service := { s with Mysql := tx.db }
        (s1.NewLog e.NORMAL "manager_operate"
            (e.T (c.GetString "lang") "log.new_manager" [("name", manager.Name)]),
          MakeSuccessJSON (e.T (c.GetString "lang") "manager.post_success" []))

/-- RefreshManagerToken can refresh a manager token (manager.go, lines 117-149). -/
def Service.RefreshManagerToken (s : Service) (e : Env) (c : Context) :
    Service × (Nat × H) :=
  match c.GetQuery "id" with
  | none => (s, MakeErrJSON 400 40000 (e.T (c.GetString "lang") "general.error_query" []))
  | some idStr =>
    match Atoi idStr with
    | none => (s, MakeErrJSON 400 40000
        (e.T (c.GetString "lang") "general.must_be_number" [("key", "id")]))
    | some id =>
      let token := e.GenerateToken
      let tx := s.Mysql.updatesManagers { Manager.zero with ID := uint id }
        { Manager.zero with Token := token } e.now
      if tx.RowsAffected != 1 then
        (s, MakeErrJSON 500 50000 (e.T (c.GetString "lang") "manager.update_token_fail" []))
      else
        let s1 : Service := { s with Mysql := tx.db }
        (s1.NewLog e.NORMAL "manager_operate"
            (e.T (c.GetString "lang") "log.manager_token" [("id", toString id)]),
          MakeSuccessJSON token)

/-- ChangeManagerPassword will change a manager password to a random string
(manager.go, lines 151-182). -/
def Service.ChangeManagerPassword (s : Service) (e : Env) (c : Context) :
    Service × (Nat × H) :=
  match c.GetQuery "id" with
  | none => (s, MakeErrJSON 400 40000 (e.T (c.GetString "lang") "general.error_query" []))
  | some idStr =>
    match Atoi idStr with
    | none => (s, MakeErrJSON 400 40000
        (e.T (c.GetString "lang") "general.must_be_number" [("key", "id")]))
    | some id =>
      let password := e.randstr
      let tx := s.Mysql.updatesManagers { Manager.zero with ID := uint id }
        { Manager.zero with Password := e.AddSalt password } e.now
      if tx.RowsAffected != 1 then
        (s, MakeErrJSON 500 50000
          (e.T (c.GetString "lang") "manager.update_password_fail" []))
      else
        let s1 : Service := { s with Mysql := tx.db }
        (s1.NewLog e.NORMAL "manager_operate"
            (e.T (c.GetString "lang") "log.manager_password" [("id", toString id)]),
          MakeSuccessJSON password)

/-- DeleteManager is delete manager handler (manager.go, lines 184-212). -/
def Service.DeleteManager (s : Service) (e : Env) (c : Context) : Service × (Nat × H) :=
  match c.GetQuery "id" with
  | none => (s, MakeErrJSON 400 40000 (e.T (c.GetString "lang") "general.error_query" []))
  | some idStr =>
    match Atoi idStr with
    | none => (s, MakeErrJSON 400 40000
        (e.T (c.GetString "lang") "general.must_be_number" [("key", "id")]))
    | some id =>
      let tx := s.Mysql.deleteManagersWhereID id e.now
      if tx.RowsAffected != 1 then
        (s, MakeErrJSON 500 50000 (e.T (c.GetString "lang") "manager.delete_error" []))
      else
        let s1 : Service := { s with Mysql := tx.db }
        (s1.NewLog e.NORMAL "manager_operate"
            (e.T (c.GetString "lang") "log.delete_manager" [("id", toString id)]),
          MakeSuccessJSON (e.T (c.GetString "lang") "manager.delete_success" []))

/-! ## router.go -/

/-- TeamAuthRequired is the team permission check middleware (router.go, lines 219-244). -/
def TeamAuthRequired (e : Env) (next : HandlerFunc) : HandlerFunc := fun s c =>
  let token := c.GetHeader "Authorization"
  if token == "" then
    (s, (c.JSON (MakeErrJSON 403 40300 (e.T (c.GetString "lang") "general.no_auth" []))).Abort)
  else
    let tokenData := s.Mysql.findToken { Token.zero with Token := token }
    if tokenData.ID == 0 then
      (s, (c.JSON (MakeErrJSON 401 40100
        (e.T (c.GetString "lang") "general.no_auth" []))).Abort)
    else
      next s (c.Set "teamID" (Value.uint tokenData.TeamID))

/-- AdminAuthRequired is the admin permission check middleware (router.go, lines 246-272). -/
def AdminAuthRequired (e : Env) (next : HandlerFunc) : HandlerFunc := fun s c =>
  let token := c.GetHeader "Authorization"
  if token == "" then
    (s, (c.JSON (MakeErrJSON 403 40300 (e.T (c.GetString "lang") "general.no_auth" []))).Abort)
  else
    let managerData := s.Mysql.findManager { Manager.zero with Token := token }
    if managerData.ID == 0 then
      (s, (c.JSON (MakeErrJSON 401 40100
        (e.T (c.GetString "lang") "general.no_auth" []))).Abort)
    else
      next s ((c.Set "managerData" (Value.manager managerData)).Set "isCheck"
        (Value.bool managerData.IsCheck))

/-- ManagerRequired make sure the account is the manager (router.go, lines 274-286). -/
def ManagerRequired (e : Env) (next : HandlerFunc) : HandlerFunc := fun s c =>
  if c.GetBool "isCheck" then
    (s, (c.JSON (MakeErrJSON 401 40100
      (e.T (c.GetString "lang") "manager.manager_required" []))).Abort)
  else
    next s c

/-- The guards of route group `check` (router.go, line 87). -/
def checkGroup (e : Env) : List (HandlerFunc → HandlerFunc) :=
  [AdminAuthRequired e]

/-- The guards of route group `manager` (router.go, line 88). -/
def managerGroup (e : Env) : List (HandlerFunc → HandlerFunc) :=
  [AdminAuthRequired e, ManagerRequired e]

/-! ## The manager operations as one transition function -/

/-- The six manager operations of manager.go. -/
inductive Op where
  | ManagerLogin
  | ManagerLogout
  | NewManager
  | RefreshManagerToken
  | ChangeManagerPassword
  | DeleteManager
deriving DecidableEq, Repr

/-- One call of a manager operation. -/
def Op.run (op : Op) (s : Service) (e : Env) (c : Context) : Service × (Nat × H) :=
  match op with
  | Op.ManagerLogin => s.ManagerLogin e c
  | Op.ManagerLogout => s.ManagerLogout e c
  | Op.NewManager => s.NewManager e c
  | Op.RefreshManagerToken => s.RefreshManagerToken e c
  | Op.ChangeManagerPassword => s.ChangeManagerPassword e c
  | Op.DeleteManager => s.DeleteManager e c

/-- Token uniqueness: no two rows of `managers` that queries can see hold the same
non-empty token. -/
def DB.tokenUnique (db : DB) : Prop :=
  (db.managers.filter (fun m => m.visible)).Pairwise
    (fun a b => a.Token = "" ∨ a.Token ≠ b.Token)

/-- Name uniqueness: no two rows of `managers` that queries can see share a name. -/
def DB.nameUnique (db : DB) : Prop :=
  (db.managers.filter (fun m => m.visible)).Pairwise (fun a b => a.Name ≠ b.Name)

instance (db : DB) : Decidable db.tokenUnique := by
  unfold DB.tokenUnique
  infer_instance

instance (db : DB) : Decidable db.nameUnique := by
  unfold DB.nameUnique
  infer_instance

/-! ## Concrete stores and requests -/

/-- An environment with a transparent salt, the message key as message, and fixed
values for the generators and the clock. -/
def exampleEnv : Env :=
  { AddSalt := fun p => "salt:" ++ p,
    CheckPassword := fun p d => d == "salt:" ++ p,
    T := fun _ key _ => key,
    GenerateToken := "T1", randstr := "r4nd0m", now := 7, NORMAL := 0 }

/-- A full manager holding token T0. -/
def alice : Manager :=
  { Manager.zero with ID := 1, Name := "alice", Password := "salt:s3cret", Token := "T0" }

/-- A second full manager holding the same token T0. -/
def bob : Manager :=
  { Manager.zero with ID := 2, Name := "bob", Password := "salt:hunter2", Token := "T0" }

/-- A check-bot account holding token TB. -/
def checkBot : Manager :=
  { Manager.zero with
    ID := 3, Name := "bot", Password := "salt:b0t", Token := "TB", IsCheck := true }

/-- A full manager, created before the check-bot, holding the token of the check-bot. -/
def erin : Manager :=
  { Manager.zero with ID := 2, Name := "erin", Password := "salt:er1n", Token := "TB" }

/-- A second check-bot account, holding the token of the first. -/
def checkBot2 : Manager :=
  { Manager.zero with
    ID := 5, Name := "bot2", Password := "salt:b0t2", Token := "TB", IsCheck := true }

/-- A full manager, created after the check-bot, holding the token of the check-bot. -/
def carol : Manager :=
  { Manager.zero with ID := 4, Name := "carol", Password := "salt:c4rol", Token := "TB" }

/-- A team session: team 7 holds token K7. -/
def teamSession : Token :=
  { Token.zero with ID := 1, TeamID := 7, Token := "K7" }

/-- A service whose tables hold the given rows. -/
def serviceOf (managers : List Manager) (tokens : List Token) : Service :=
  { Mysql := { managers := managers, tokens := tokens, logs := [] } }

/-- A request with the given Authorization header (none when empty), query parameter
`id` and JSON body. -/
def request (authorization : String) (id : Option String) (body : Option ManagerLoginForm) :
    Context :=
  { Header := if authorization == "" then [] else [("Authorization", authorization)],
    Query := match id with
      | none => []
      | some v => [("id", v)],
    Body := body, Keys := [], Written := none, Aborted := false }

/-- A protected route handler: it answers with a success naming the route. -/
def protectedHandler : HandlerFunc :=
  fun s c => (s, c.JSON (MakeSuccessJSON "protected"))

/-! ## Lemmas on the gorm layer -/

theorem scanStruct_nil {α : Type} (dest : α) : scanStruct dest [] = dest := rfl

theorem scanStruct_singleton {α : Type} (dest row : α) : scanStruct dest [row] = row := rfl

theorem scanStruct_mem {α : Type} (dest : α) (rows : List α) (h : rows ≠ []) :
    scanStruct dest rows ∈ rows := by
  induction rows generalizing dest with
  | nil => exact absurd rfl h
  | cons a l ih =>
    by_cases hl : l = []
    · subst hl
      simp [scanStruct]
    · have hmem := ih a hl
      unfold scanStruct at hmem ⊢
      simpa [List.foldl_cons] using Or.inr hmem

theorem whereStruct_name (n : String) (m : Manager) :
    Manager.whereStruct { Manager.zero with Name := n } m = (n == "" || m.Name == n) := by
  simp [Manager.whereStruct, Manager.zero]

theorem whereStruct_token (t : String) (m : Manager) :
    Manager.whereStruct { Manager.zero with Token := t } m = (t == "" || m.Token == t) := by
  simp [Manager.whereStruct, Manager.zero]

theorem whereStruct_id (i : Nat) (m : Manager) :
    Manager.whereStruct { Manager.zero with ID := i } m = (i == 0 || m.ID == i) := by
  simp [Manager.whereStruct, Manager.zero]

theorem Token_whereStruct_token (t : String) (k : Token) :
    Token.whereStruct { Token.zero with Token := t } k = (t == "" || k.Token == t) := by
  simp [Token.whereStruct, Token.zero]

theorem findManager_eq_zero (db : DB) (cond : Manager)
    (h : ∀ m ∈ db.managers, ¬ (m.visible && cond.whereStruct m) = true) :
    db.findManager cond = Manager.zero := by
  have hnil : db.selectManagers cond = [] := List.filter_eq_nil_iff.mpr h
  simp [DB.findManager, hnil, scanStruct_nil]

theorem findManager_mem (db : DB) (cond : Manager)
    (h : ∃ m ∈ db.managers, (m.visible && cond.whereStruct m) = true) :
    db.findManager cond ∈ db.managers ∧
      ((db.findManager cond).visible && cond.whereStruct (db.findManager cond)) = true := by
  obtain ⟨m, hm, hp⟩ := h
  have hne : db.selectManagers cond ≠ [] := by
    intro hnil
    exact (List.filter_eq_nil_iff.mp hnil) m hm hp
  have hmem := scanStruct_mem Manager.zero _ hne
  exact List.mem_filter.mp hmem

theorem findManager_unique (db : DB) (cond r : Manager)
    (h : db.selectManagers cond = [r]) : db.findManager cond = r := by
  simp [DB.findManager, h, scanStruct_singleton]

theorem findToken_eq_zero (db : DB) (cond : Token)
    (h : ∀ k ∈ db.tokens, ¬ (k.visible && cond.whereStruct k) = true) :
    db.findToken cond = Token.zero := by
  have hnil : db.selectTokens cond = [] := List.filter_eq_nil_iff.mpr h
  simp [DB.findToken, hnil, scanStruct_nil]

theorem findToken_mem (db : DB) (cond : Token)
    (h : ∃ k ∈ db.tokens, (k.visible && cond.whereStruct k) = true) :
    db.findToken cond ∈ db.tokens ∧
      ((db.findToken cond).visible && cond.whereStruct (db.findToken cond)) = true := by
  obtain ⟨k, hk, hp⟩ := h
  have hne : db.selectTokens cond ≠ [] := by
    intro hnil
    exact (List.filter_eq_nil_iff.mp hnil) k hk hp
  have hmem := scanStruct_mem Token.zero _ hne
  exact List.mem_filter.mp hmem

/-! ## The guards -/

/-- C5: each of `TeamAuthRequired` and `AdminAuthRequired` answers 403/40300 and aborts
on an empty Authorization header, answers 401/40100 and aborts on a non-empty header
that no row of its table holds, and otherwise (the header is non-empty and a row holds
it, primary keys being non-zero) hands over to the next handler with the team id (the
manager record and its `IsCheck` flag) of a row holding the header bound in the context.
In the two failure cases the result does not depend on the next handler, and in every
case the service reaches the next handler, or is returned, as it was. -/
theorem auth_guards_resolve_or_abort (e : Env) (s : Service) (c : Context)
    (next : HandlerFunc) :
    (c.GetHeader "Authorization" = "" →
      TeamAuthRequired e next s c = (s, (c.JSON (MakeErrJSON 403 40300
        (e.T (c.GetString "lang") "general.no_auth" []))).Abort)) ∧
    (c.GetHeader "Authorization" ≠ "" →
      (∀ k ∈ s.Mysql.tokens, k.visible = true → k.Token ≠ c.GetHeader "Authorization") →
      TeamAuthRequired e next s c = (s, (c.JSON (MakeErrJSON 401 40100
        (e.T (c.GetString "lang") "general.no_auth" []))).Abort)) ∧
    (c.GetHeader "Authorization" ≠ "" → (∀ k ∈ s.Mysql.tokens, k.ID ≠ 0) →
      (∃ k ∈ s.Mysql.tokens, k.visible = true ∧ k.Token = c.GetHeader "Authorization") →
      ∃ k ∈ s.Mysql.tokens, k.visible = true ∧ k.Token = c.GetHeader "Authorization" ∧
        TeamAuthRequired e next s c = next s (c.Set "teamID" (Value.uint k.TeamID))) ∧
    (c.GetHeader "Authorization" = "" →
      AdminAuthRequired e next s c = (s, (c.JSON (MakeErrJSON 403 40300
        (e.T (c.GetString "lang") "general.no_auth" []))).Abort)) ∧
    (c.GetHeader "Authorization" ≠ "" →
      (∀ m ∈ s.Mysql.managers, m.visible = true → m.Token ≠ c.GetHeader "Authorization") →
      AdminAuthRequired e next s c = (s, (c.JSON (MakeErrJSON 401 40100
        (e.T (c.GetString "lang") "general.no_auth" []))).Abort)) ∧
    (c.GetHeader "Authorization" ≠ "" → (∀ m ∈ s.Mysql.managers, m.ID ≠ 0) →
      (∃ m ∈ s.Mysql.managers, m.visible = true ∧ m.Token = c.GetHeader "Authorization") →
      ∃ m ∈ s.Mysql.managers, m.visible = true ∧ m.Token = c.GetHeader "Authorization" ∧
        AdminAuthRequired e next s c =
          next s ((c.Set "managerData" (Value.manager m)).Set "isCheck"
            (Value.bool m.IsCheck))) := by
  refine ⟨?_, ?_, ?_, ?_, ?_, ?_⟩
  · intro h0
    simp [TeamAuthRequired, h0]
  · intro h0 hnone
    have hz : s.Mysql.findToken { Token.zero with Token := c.GetHeader "Authorization" }
        = Token.zero := by
      apply findToken_eq_zero
      intro k hkm hp
      rw [Token_whereStruct_token] at hp
      simp [h0] at hp
      exact hnone k hkm hp.1 hp.2
    simp [Token.zero] at hz
    simp [TeamAuthRequired, h0, hz, Token.zero]
  · intro h0 hk hex
    obtain ⟨k, hkm, hv, ht⟩ := hex
    have hfound := findToken_mem s.Mysql
      { Token.zero with Token := c.GetHeader "Authorization" }
      ⟨k, hkm, by rw [Token_whereStruct_token]; simp [hv, ht]⟩
    obtain ⟨hmem, hp⟩ := hfound
    rw [Token_whereStruct_token] at hp
    simp [h0] at hp
    refine ⟨_, hmem, hp.1, hp.2, ?_⟩
    have hid := hk _ hmem
    simp [TeamAuthRequired, h0, hid]
  · intro h0
    simp [AdminAuthRequired, h0]
  · intro h0 hnone
    have hz : s.Mysql.findManager { Manager.zero with Token := c.GetHeader "Authorization" }
        = Manager.zero := by
      apply findManager_eq_zero
      intro m hmm hp
      rw [whereStruct_token] at hp
      simp [h0] at hp
      exact hnone m hmm hp.1 hp.2
    simp [Manager.zero] at hz
    simp [AdminAuthRequired, h0, hz, Manager.zero]
  · intro h0 hm hex
    obtain ⟨m, hmm, hv, ht⟩ := hex
    have hfound := findManager_mem s.Mysql
      { Manager.zero with Token := c.GetHeader "Authorization" }
      ⟨m, hmm, by rw [whereStruct_token]; simp [hv, ht]⟩
    obtain ⟨hmem, hp⟩ := hfound
    rw [whereStruct_token] at hp
    simp [h0] at hp
    refine ⟨_, hmem, hp.1, hp.2, ?_⟩
    have hid := hm _ hmem
    simp [AdminAuthRequired, h0, hid]

/-- C5 at concrete requests: an empty header is refused with 403, an unknown token with
401, and a held token reaches the handler with the principal bound. -/
theorem auth_guards_resolve_or_abort_witness :
    TeamAuthRequired exampleEnv protectedHandler (serviceOf [alice] [teamSession])
        (request "" none none) =
      (serviceOf [alice] [teamSession],
        ((request "" none none).JSON (MakeErrJSON 403 40300 "general.no_auth")).Abort) ∧
    AdminAuthRequired exampleEnv protectedHandler (serviceOf [alice] [teamSession])
        (request "K7" none none) =
      (serviceOf [alice] [teamSession],
        ((request "K7" none none).JSON (MakeErrJSON 401 40100 "general.no_auth")).Abort) ∧
    (∃ k ∈ [teamSession], k.visible = true ∧ k.Token = "K7" ∧
      TeamAuthRequired exampleEnv protectedHandler (serviceOf [alice] [teamSession])
          (request "K7" none none) =
        protectedHandler (serviceOf [alice] [teamSession])
          ((request "K7" none none).Set "teamID" (Value.uint k.TeamID))) :=
  ⟨(auth_guards_resolve_or_abort exampleEnv (serviceOf [alice] [teamSession])
      (request "" none none) protectedHandler).1 (by decide),
   (auth_guards_resolve_or_abort exampleEnv (serviceOf [alice] [teamSession])
      (request "K7" none none) protectedHandler).2.2.2.2.1 (by decide) (by decide),
   (auth_guards_resolve_or_abort exampleEnv (serviceOf [alice] [teamSession])
      (request "K7" none none) protectedHandler).2.2.1 (by decide) (by decide) (by decide)⟩

/-! ## Lemmas on lists of rows -/

theorem filter_singleton_iff {α : Type} {l : List α} {p : α → Bool} {r : α}
    (h : l.filter p = [r]) : ∀ m ∈ l, (p m = true ↔ m = r) := by
  intro m hm
  constructor
  · intro hp
    have hmem : m ∈ l.filter p := List.mem_filter.mpr ⟨hm, hp⟩
    rw [h] at hmem
    simpa using hmem
  · intro hmr
    have hmem : r ∈ l.filter p := by rw [h]; simp
    rw [hmr]
    exact (List.mem_filter.mp hmem).2

theorem BindJSON_some (c : Context) (f : ManagerLoginForm) (hb : c.Body = some f)
    (hn : f.Name ≠ "") (hp : f.Password ≠ "") : c.BindJSON = some f := by
  simp [Context.BindJSON, hb, hn, hp]

/-! ## Login failures -/

/-- C3: a login whose name no manager row has and a login whose name a row has but
whose password the stored digest rejects get the same answer from `ManagerLogin`:
status 403, code 40300, the message of key `manager.login_error`, no token; and the
store is left as it was. -/
theorem ManagerLogin_error_uniform (e : Env) (s : Service) (c1 c2 : Context)
    (f1 f2 : ManagerLoginForm)
    (hb1 : c1.Body = some f1) (hn1 : f1.Name ≠ "") (hp1 : f1.Password ≠ "")
    (hb2 : c2.Body = some f2) (hn2 : f2.Name ≠ "") (hp2 : f2.Password ≠ "")
    (hnone : ∀ m ∈ s.Mysql.managers, m.visible = true → m.Name ≠ f1.Name)
    (hsome : ∃ m ∈ s.Mysql.managers, m.visible = true ∧ m.Name = f2.Name)
    (hrej : ∀ m ∈ s.Mysql.managers, m.visible = true → m.Name = f2.Name →
      e.CheckPassword f2.Password m.Password = false) :
    s.ManagerLogin e c1 =
      (s, MakeErrJSON 403 40300 (e.T (c1.GetString "lang") "manager.login_error" [])) ∧
    s.ManagerLogin e c2 =
      (s, MakeErrJSON 403 40300 (e.T (c2.GetString "lang") "manager.login_error" [])) ∧
    (s.ManagerLogin e c1).2.1 = (s.ManagerLogin e c2).2.1 ∧
    (s.ManagerLogin e c1).2.2.error = (s.ManagerLogin e c2).2.2.error ∧
    (s.ManagerLogin e c1).2.2.data = none ∧
    (s.ManagerLogin e c2).2.2.data = none ∧
    (c1.GetString "lang" = c2.GetString "lang" →
      (s.ManagerLogin e c1).2 = (s.ManagerLogin e c2).2) := by
  have hz : s.Mysql.findManager { Manager.zero with Name := f1.Name } = Manager.zero := by
    apply findManager_eq_zero
    intro m hm hp
    rw [whereStruct_name] at hp
    simp [hn1] at hp
    exact hnone m hm hp.1 hp.2
  have h1 : s.ManagerLogin e c1 =
      (s, MakeErrJSON 403 40300 (e.T (c1.GetString "lang") "manager.login_error" [])) := by
    simp [Manager.zero] at hz
    simp [Service.ManagerLogin, BindJSON_some c1 f1 hb1 hn1 hp1, hz, Manager.zero]
  obtain ⟨m, hm, hv, hname⟩ := hsome
  have hfound := findManager_mem s.Mysql { Manager.zero with Name := f2.Name }
    ⟨m, hm, by rw [whereStruct_name]; simp [hv, hname]⟩
  obtain ⟨hmem, hp⟩ := hfound
  rw [whereStruct_name] at hp
  simp [hn2] at hp
  have hcheck := hrej _ hmem hp.1 hp.2
  have h2 : s.ManagerLogin e c2 =
      (s, MakeErrJSON 403 40300 (e.T (c2.GetString "lang") "manager.login_error" [])) := by
    simp [Manager.zero] at hcheck
    simp [Service.ManagerLogin, BindJSON_some c2 f2 hb2 hn2 hp2, hcheck, Manager.zero]
  refine ⟨h1, h2, ?_, ?_, ?_, ?_, ?_⟩
  · rw [h1, h2]; rfl
  · rw [h1, h2]; rfl
  · rw [h1]; rfl
  · rw [h2]; rfl
  · intro hl
    rw [h1, h2, hl]

/-- C3 at a concrete store: an unknown name and a wrong password for alice get the same
403 answer. -/
theorem ManagerLogin_error_uniform_witness :
    (serviceOf [alice] []).ManagerLogin exampleEnv
        (request "" none (some { Name := "mallory", Password := "guess" })) =
      (serviceOf [alice] [], MakeErrJSON 403 40300 "manager.login_error") ∧
    (serviceOf [alice] []).ManagerLogin exampleEnv
        (request "" none (some { Name := "alice", Password := "guess" })) =
      (serviceOf [alice] [], MakeErrJSON 403 40300 "manager.login_error") :=
  ⟨(ManagerLogin_error_uniform exampleEnv (serviceOf [alice] [])
      (request "" none (some { Name := "mallory", Password := "guess" }))
      (request "" none (some { Name := "alice", Password := "guess" }))
      { Name := "mallory", Password := "guess" } { Name := "alice", Password := "guess" }
      rfl (by decide) (by decide) rfl (by decide) (by decide)
      (by decide) (by decide) (by decide)).1,
   (ManagerLogin_error_uniform exampleEnv (serviceOf [alice] [])
      (request "" none (some { Name := "mallory", Password := "guess" }))
      (request "" none (some { Name := "alice", Password := "guess" }))
      { Name := "mallory", Password := "guess" } { Name := "alice", Password := "guess" }
      rfl (by decide) (by decide) rfl (by decide) (by decide)
      (by decide) (by decide) (by decide)).2.1⟩

/-! ## Creating and deleting managers -/

/-- C7: when a manager row with the submitted name exists, `NewManager` answers
400/40001 with the message of key `manager.repeat` and returns the service as it was:
no row is created and no row, digest or token is touched. -/
theorem NewManager_duplicate_rejected (e : Env) (s : Service) (c : Context)
    (f : ManagerLoginForm) (m : Manager)
    (hid : ∀ r ∈ s.Mysql.managers, r.ID ≠ 0)
    (hb : c.Body = some f) (hn : f.Name ≠ "") (hp : f.Password ≠ "")
    (hm : m ∈ s.Mysql.managers) (hv : m.visible = true) (hname : m.Name = f.Name) :
    s.NewManager e c =
      (s, MakeErrJSON 400 40001 (e.T (c.GetString "lang") "manager.repeat" [])) := by
  have hfound := findManager_mem s.Mysql { Manager.zero with Name := f.Name }
    ⟨m, hm, by rw [whereStruct_name]; simp [hv, hname]⟩
  have hne := hid _ hfound.1
  simp [Manager.zero] at hne
  simp [Service.NewManager, BindJSON_some c f hb hn hp, hne, Manager.zero]

/-- C7 at a concrete store: creating a second alice is refused and nothing changes. -/
theorem NewManager_duplicate_rejected_witness :
    (serviceOf [alice, checkBot] []).NewManager exampleEnv
        (request "T0" none (some { Name := "alice", Password := "other" })) =
      (serviceOf [alice, checkBot] [], MakeErrJSON 400 40001 "manager.repeat") :=
  NewManager_duplicate_rejected exampleEnv (serviceOf [alice, checkBot] [])
    (request "T0" none (some { Name := "alice", Password := "other" }))
    { Name := "alice", Password := "other" } alice
    (by decide) rfl (by decide) (by decide) (by decide) (by decide) (by decide)

/-- C8: for an integer `id` read from the query, `DeleteManager` answers 500/50000 with
the message of key `manager.delete_error` and returns the service as it was when no
manager row has that id; when exactly one row has it, the call succeeds, that row gets
its `DeletedAt` set, so it leaves the rows queries can see, and every other row, like the
table of team tokens, stays as it was. -/
theorem DeleteManager_by_id (e : Env) (s : Service) (c : Context) (idStr : String)
    (id : Int) (hq : c.GetQuery "id" = some idStr) (ha : Atoi idStr = some id) :
    ((∀ m ∈ s.Mysql.managers, m.visible = true → (m.ID : Int) ≠ id) →
      s.DeleteManager e c =
        (s, MakeErrJSON 500 50000 (e.T (c.GetString "lang") "manager.delete_error" []))) ∧
    (∀ r : Manager,
      s.Mysql.managers.filter (fun m => m.visible && ((m.ID : Int) == id)) = [r] →
      (s.DeleteManager e c).2 =
          MakeSuccessJSON (e.T (c.GetString "lang") "manager.delete_success" []) ∧
        (s.DeleteManager e c).1.Mysql.managers =
          s.Mysql.managers.map
            (fun m => if m = r then { m with DeletedAt := some e.now } else m) ∧
        (s.DeleteManager e c).1.Mysql.managers.filter (fun m => m.visible) =
          (s.Mysql.managers.filter (fun m => m.visible)).filter (fun m => decide (m ≠ r)) ∧
        (s.DeleteManager e c).1.Mysql.tokens = s.Mysql.tokens) := by
  constructor
  · intro hnone
    have hnil : s.Mysql.managers.filter (fun m => m.visible && ((m.ID : Int) == id)) = [] := by
      apply List.filter_eq_nil_iff.mpr
      intro m hm hp
      simp at hp
      exact hnone m hm hp.1 hp.2
    simp [Service.DeleteManager, hq, ha, DB.deleteManagersWhereID, hnil]
  · intro r hone
    have hiff := filter_singleton_iff hone
    have hmap : s.Mysql.managers.map (fun m =>
          if m.visible && ((m.ID : Int) == id) then { m with DeletedAt := some e.now } else m)
        = s.Mysql.managers.map
          (fun m => if m = r then { m with DeletedAt := some e.now } else m) := by
      apply List.map_congr_left
      intro m hm
      by_cases hmr : m = r
      · have hp := (hiff m hm).mpr hmr
        simp [hmr] at hp ⊢
        simp [hp]
      · have hp : ¬ ((m.visible && ((m.ID : Int) == id)) = true) :=
          fun hp => hmr ((hiff m hm).mp hp)
        simp [hmr]
        intro h1 h2
        exact absurd (by simp [h1, h2]) hp
    have hrun : (s.DeleteManager e c) =
        (Service.NewLog { s with Mysql := (s.Mysql.deleteManagersWhereID id e.now).db }
            e.NORMAL "manager_operate"
            (e.T (c.GetString "lang") "log.delete_manager" [("id", toString id)]),
          MakeSuccessJSON (e.T (c.GetString "lang") "manager.delete_success" [])) := by
      simp [Service.DeleteManager, hq, ha, DB.deleteManagersWhereID, hone]
    refine ⟨by rw [hrun], ?_, ?_, by rw [hrun]; rfl⟩
    · rw [hrun]
      simp only [Service.NewLog, DB.deleteManagersWhereID]
      exact hmap
    · rw [hrun]
      simp only [Service.NewLog, DB.deleteManagersWhereID]
      rw [hmap, List.filter_map, List.filter_filter]
      have hcongr : s.Mysql.managers.filter
            ((fun m : Manager => m.visible) ∘
              (fun m => if m = r then { m with DeletedAt := some e.now } else m))
          = s.Mysql.managers.filter (fun a => decide (a ≠ r) && a.visible) := by
        apply List.filter_congr
        intro m _
        by_cases hmr : m = r
        · simp [hmr, Model.visible]
        · simp [hmr]
      rw [hcongr]
      have hsame : ∀ m ∈ s.Mysql.managers.filter (fun a => decide (a ≠ r) && a.visible),
          (fun m => if m = r then { m with DeletedAt := some e.now } else m) m =
            (fun m => m) m := by
        intro m hm
        have hp := (List.mem_filter.mp hm).2
        simp at hp
        simp [hp.1]
      rw [List.map_congr_left hsame]
      simp

/-- C8 at a concrete store: deleting id 9, which no row has, fails and changes nothing;
deleting id 1 succeeds and only alice leaves the visible rows. -/
theorem DeleteManager_by_id_witness :
    (serviceOf [alice, checkBot] []).DeleteManager exampleEnv (request "T0" (some "9") none) =
      (serviceOf [alice, checkBot] [], MakeErrJSON 500 50000 "manager.delete_error") ∧
    ((serviceOf [alice, checkBot] []).DeleteManager exampleEnv
        (request "T0" (some "1") none)).1.Mysql.managers.filter (fun m => m.visible) =
      [checkBot] :=
  ⟨(DeleteManager_by_id exampleEnv (serviceOf [alice, checkBot] [])
      (request "T0" (some "9") none) "9" 9 (by decide) (by decide)).1 (by decide),
   ((DeleteManager_by_id exampleEnv (serviceOf [alice, checkBot] [])
      (request "T0" (some "1") none) "1" 1 (by decide) (by decide)).2 alice
        (by decide)).2.2.1⟩

/-! ## Where the code leaves the specification -/

theorem ManagerLogout_keeps_managers (e : Env) (s : Service) (c : Context) :
    (s.ManagerLogout e c).1.Mysql.managers = s.Mysql.managers := by
  unfold Service.ManagerLogout
  by_cases h : c.GetHeader "Authorization" = ""
  · simp [h]
  · simp [h, DB.deleteTokensWhereToken]

/-- C2, the code at a failing input: alice holds token T0 and logs out with it.
`ManagerLogout` answers success, yet the table of managers is what it was, alice still
holds T0, and `AdminAuthRequired` goes on to accept T0 as alice; the delete ran on the
table of team tokens, where it removed the session of team 7 for a request carrying that
token. -/
theorem ManagerLogout_leaves_manager_token :
    (serviceOf [alice] [teamSession]).ManagerLogout exampleEnv (request "T0" none none) =
      (serviceOf [alice] [teamSession], MakeSuccessJSON "manager.logout_success") ∧
    AdminAuthRequired exampleEnv protectedHandler
        ((serviceOf [alice] [teamSession]).ManagerLogout exampleEnv
          (request "T0" none none)).1 (request "T0" none none) =
      protectedHandler (serviceOf [alice] [teamSession])
        (((request "T0" none none).Set "managerData" (Value.manager alice)).Set "isCheck"
          (Value.bool false)) ∧
    ((serviceOf [alice] [teamSession]).ManagerLogout exampleEnv
        (request "K7" none none)).1 =
      serviceOf [alice] [{ teamSession with DeletedAt := some 7 }] := by
  decide

theorem RefreshManagerToken_unknown_id (e : Env) (s : Service) (c : Context)
    (idStr : String) (id : Int) (hq : c.GetQuery "id" = some idStr)
    (ha : Atoi idStr = some id) (h0 : uint id ≠ 0)
    (hnone : ∀ m ∈ s.Mysql.managers, m.visible = true → m.ID ≠ uint id) :
    s.RefreshManagerToken e c =
      (s, MakeErrJSON 500 50000 (e.T (c.GetString "lang") "manager.update_token_fail" [])) := by
  have hnil : s.Mysql.selectManagers { Manager.zero with ID := uint id } = [] := by
    apply List.filter_eq_nil_iff.mpr
    intro m hm hp
    rw [whereStruct_id] at hp
    simp [h0] at hp
    exact hnone m hm hp.1 hp.2
  simp [Manager.zero] at hnil
  by_cases hb : e.GenerateToken = ""
  · simp [Service.RefreshManagerToken, hq, ha, DB.updatesManagers, Manager.isBlank,
      Manager.zero, hb]
  · simp [Service.RefreshManagerToken, hq, ha, DB.updatesManagers, Manager.isBlank,
      Manager.zero, hb, hnil]

/-- C9, the code at a failing input: alice, with id 1, is the only manager and the query
is `id=0`, the id of no row.  `uint(0)` is the zero value, the struct condition of the
update is blank and selects every row, one row is affected, and `RefreshManagerToken`
answers success with the new token T1, which alice now holds in place of T0. -/
theorem RefreshManagerToken_zero_id :
    Atoi "0" = some 0 ∧
    (∀ m ∈ (serviceOf [alice] []).Mysql.managers, (m.ID : Int) ≠ 0) ∧
    ((serviceOf [alice] []).RefreshManagerToken exampleEnv
        (request "T0" (some "0") none)).2 = MakeSuccessJSON "T1" ∧
    ((serviceOf [alice] []).RefreshManagerToken exampleEnv
        (request "T0" (some "0") none)).1.Mysql.managers =
      [{ alice with Token := "T1", UpdatedAt := 7 }] := by
  decide

/-! ## Resolving a manager token -/

theorem selectManagers_token (db : DB) (t : String) (ht : t ≠ "") :
    db.selectManagers { Manager.zero with Token := t } =
      db.managers.filter (fun r => r.visible && r.Token == t) := by
  unfold DB.selectManagers
  apply List.filter_congr
  intro m _
  have hb : (t == "") = false := beq_eq_false_iff_ne.mpr ht
  rw [whereStruct_token, hb, Bool.false_or]

theorem selectManagers_name (db : DB) (n : String) (hn : n ≠ "") :
    db.selectManagers { Manager.zero with Name := n } =
      db.managers.filter (fun r => r.visible && r.Name == n) := by
  unfold DB.selectManagers
  apply List.filter_congr
  intro m _
  have hb : (n == "") = false := beq_eq_false_iff_ne.mpr hn
  rw [whereStruct_name, hb, Bool.false_or]

theorem AdminAuthRequired_known (e : Env) (s : Service) (c : Context) (next : HandlerFunc)
    (m : Manager) (ht : c.GetHeader "Authorization" ≠ "")
    (hone : s.Mysql.managers.filter
      (fun r => r.visible && r.Token == c.GetHeader "Authorization") = [m])
    (hid : m.ID ≠ 0) :
    AdminAuthRequired e next s c =
      next s ((c.Set "managerData" (Value.manager m)).Set "isCheck"
        (Value.bool m.IsCheck)) := by
  have hfind : s.Mysql.findManager { Manager.zero with Token := c.GetHeader "Authorization" }
      = m := by
    apply findManager_unique
    rw [selectManagers_token _ _ ht, hone]
  simp [Manager.zero] at hfind
  simp [AdminAuthRequired, ht, Manager.zero, hfind, hid]

theorem AdminAuthRequired_unknown (e : Env) (s : Service) (c : Context)
    (next : HandlerFunc) (ht : c.GetHeader "Authorization" ≠ "")
    (hnone : s.Mysql.managers.filter
      (fun r => r.visible && r.Token == c.GetHeader "Authorization") = []) :
    AdminAuthRequired e next s c =
      (s, (c.JSON (MakeErrJSON 401 40100
        (e.T (c.GetString "lang") "general.no_auth" []))).Abort) := by
  have hfind : s.Mysql.findManager { Manager.zero with Token := c.GetHeader "Authorization" }
      = Manager.zero := by
    unfold DB.findManager
    rw [selectManagers_token _ _ ht, hnone]
    rfl
  simp [Manager.zero] at hfind
  simp [AdminAuthRequired, ht, Manager.zero, hfind]

theorem GetBool_isCheck (c : Context) (m : Manager) :
    ((c.Set "managerData" (Value.manager m)).Set "isCheck"
      (Value.bool m.IsCheck)).GetBool "isCheck" = m.IsCheck := by
  simp [Context.GetBool, Context.Set, List.lookup]

theorem GetString_lang (c : Context) (m : Manager) :
    ((c.Set "managerData" (Value.manager m)).Set "isCheck"
      (Value.bool m.IsCheck)).GetString "lang" = c.GetString "lang" := by
  have h1 : ("lang" == "isCheck") = false := by decide
  have h2 : ("lang" == "managerData") = false := by decide
  simp [Context.GetString, Context.Set, List.lookup, h1, h2]

theorem AdminAuthRequired_held (e : Env) (s : Service) (c : Context)
    (ht : c.GetHeader "Authorization" ≠ "") (hid : ∀ m ∈ s.Mysql.managers, m.ID ≠ 0)
    (hheld : ∃ m ∈ s.Mysql.managers,
      m.visible = true ∧ m.Token = c.GetHeader "Authorization") :
    ∃ m ∈ s.Mysql.managers, m.visible = true ∧ m.Token = c.GetHeader "Authorization" ∧
      ∀ next : HandlerFunc, AdminAuthRequired e next s c =
        next s ((c.Set "managerData" (Value.manager m)).Set "isCheck"
          (Value.bool m.IsCheck)) := by
  obtain ⟨m, hmm, hv, htok⟩ := hheld
  have hfound := findManager_mem s.Mysql
    { Manager.zero with Token := c.GetHeader "Authorization" }
    ⟨m, hmm, by rw [whereStruct_token]; simp [hv, htok]⟩
  obtain ⟨hmem, hp⟩ := hfound
  rw [whereStruct_token] at hp
  simp [ht] at hp
  refine ⟨_, hmem, hp.1, hp.2, ?_⟩
  intro next
  have hne := hid _ hmem
  simp [AdminAuthRequired, ht, hne]

/-- C4, the claim fails where a check-bot row and a full-manager row hold one token, the
rows of each store standing in the order of their primary keys.  In the first store the
check-bot (id 3) and carol (id 4) hold TB: the token is held by a row whose flag is set,
yet the manager chain hands the request to the handler, as carol.  In the second store
erin (id 2) and the check-bot (id 3) hold TB: the token is held by a row whose flag is
not set, yet the manager chain answers 401. -/
theorem guard_chains_shared_token :
    ("TB" ≠ "" ∧ checkBot ∈ [checkBot, carol] ∧ checkBot.visible = true ∧
      checkBot.Token = "TB" ∧ checkBot.IsCheck = true ∧ checkBot.ID < carol.ID ∧
      Use (managerGroup exampleEnv) protectedHandler (serviceOf [checkBot, carol] [])
          (request "TB" none none) =
        protectedHandler (serviceOf [checkBot, carol] [])
          (((request "TB" none none).Set "managerData" (Value.manager carol)).Set "isCheck"
            (Value.bool false))) ∧
    (erin ∈ [erin, checkBot] ∧ erin.visible = true ∧ erin.Token = "TB" ∧
      erin.IsCheck = false ∧ erin.ID < checkBot.ID ∧
      Use (managerGroup exampleEnv) protectedHandler (serviceOf [erin, checkBot] [])
          (request "TB" none none) =
        (serviceOf [erin, checkBot] [],
          ((((request "TB" none none).Set "managerData" (Value.manager checkBot)).Set
            "isCheck" (Value.bool true)).JSON
              (MakeErrJSON 401 40100 "manager.manager_required")).Abort)) := by
  decide

/-- C4 as amended: for a non-empty token held by a manager row, if every manager row
holding the token is a check-bot, the chain of the manager group answers 401/40100 with
the message of key `manager.manager_required` and aborts, whatever the handler, while the
chain of the check group hands the request to the handler; if no manager row holding the
token is a check-bot, both chains hand the request to the handler.  In each case the
record and flag bound in the context are those of a row holding the token. -/
theorem guard_chains_by_role (e : Env) (s : Service) (c : Context) (handler : HandlerFunc)
    (ht : c.GetHeader "Authorization" ≠ "") (hid : ∀ m ∈ s.Mysql.managers, m.ID ≠ 0)
    (hheld : ∃ m ∈ s.Mysql.managers,
      m.visible = true ∧ m.Token = c.GetHeader "Authorization") :
    ((∀ m ∈ s.Mysql.managers, m.visible = true → m.Token = c.GetHeader "Authorization" →
        m.IsCheck = true) →
      ∃ m ∈ s.Mysql.managers, m.visible = true ∧ m.Token = c.GetHeader "Authorization" ∧
        Use (managerGroup e) handler s c =
          (s, ((((c.Set "managerData" (Value.manager m)).Set "isCheck"
            (Value.bool m.IsCheck)).JSON (MakeErrJSON 401 40100
              (e.T (c.GetString "lang") "manager.manager_required" []))).Abort)) ∧
        Use (checkGroup e) handler s c =
          handler s ((c.Set "managerData" (Value.manager m)).Set "isCheck"
            (Value.bool m.IsCheck))) ∧
    ((∀ m ∈ s.Mysql.managers, m.visible = true → m.Token = c.GetHeader "Authorization" →
        m.IsCheck = false) →
      ∃ m ∈ s.Mysql.managers, m.visible = true ∧ m.Token = c.GetHeader "Authorization" ∧
        Use (managerGroup e) handler s c =
          handler s ((c.Set "managerData" (Value.manager m)).Set "isCheck"
            (Value.bool m.IsCheck)) ∧
        Use (checkGroup e) handler s c =
          handler s ((c.Set "managerData" (Value.manager m)).Set "isCheck"
            (Value.bool m.IsCheck))) := by
  obtain ⟨m, hmm, hv, htok, hadmin⟩ := AdminAuthRequired_held e s c ht hid hheld
  have hcheck : Use (checkGroup e) handler s c =
      handler s ((c.Set "managerData" (Value.manager m)).Set "isCheck"
        (Value.bool m.IsCheck)) := by
    simp only [Use, checkGroup, List.foldr]
    exact hadmin handler
  have hmanager : Use (managerGroup e) handler s c =
      ManagerRequired e handler s ((c.Set "managerData" (Value.manager m)).Set "isCheck"
        (Value.bool m.IsCheck)) := by
    simp only [Use, managerGroup, List.foldr]
    exact hadmin _
  refine ⟨fun hall => ⟨m, hmm, hv, htok, ?_, hcheck⟩,
    fun hall => ⟨m, hmm, hv, htok, ?_, hcheck⟩⟩
  · have hc := hall m hmm hv htok
    rw [hmanager]
    unfold ManagerRequired
    rw [GetBool_isCheck, GetString_lang]
    simp [hc]
  · have hc := hall m hmm hv htok
    rw [hmanager]
    unfold ManagerRequired
    rw [GetBool_isCheck]
    simp [hc]

/-- C4 as amended, at a concrete store where two check-bots share TB and alice holds T0:
TB is stopped by the manager group and let through by the check group; T0 passes
both. -/
theorem guard_chains_by_role_witness :
    (∃ m ∈ [alice, checkBot, checkBot2], m.visible = true ∧ m.Token = "TB" ∧
      Use (managerGroup exampleEnv) protectedHandler
          (serviceOf [alice, checkBot, checkBot2] []) (request "TB" none none) =
        (serviceOf [alice, checkBot, checkBot2] [],
          ((((request "TB" none none).Set "managerData" (Value.manager m)).Set
            "isCheck" (Value.bool m.IsCheck)).JSON
              (MakeErrJSON 401 40100 "manager.manager_required")).Abort) ∧
      Use (checkGroup exampleEnv) protectedHandler
          (serviceOf [alice, checkBot, checkBot2] []) (request "TB" none none) =
        protectedHandler (serviceOf [alice, checkBot, checkBot2] [])
          (((request "TB" none none).Set "managerData" (Value.manager m)).Set
            "isCheck" (Value.bool m.IsCheck))) ∧
    (∃ m ∈ [alice, checkBot, checkBot2], m.visible = true ∧ m.Token = "T0" ∧
      Use (managerGroup exampleEnv) protectedHandler
          (serviceOf [alice, checkBot, checkBot2] []) (request "T0" none none) =
        protectedHandler (serviceOf [alice, checkBot, checkBot2] [])
          (((request "T0" none none).Set "managerData" (Value.manager m)).Set
            "isCheck" (Value.bool m.IsCheck)) ∧
      Use (checkGroup exampleEnv) protectedHandler
          (serviceOf [alice, checkBot, checkBot2] []) (request "T0" none none) =
        protectedHandler (serviceOf [alice, checkBot, checkBot2] [])
          (((request "T0" none none).Set "managerData" (Value.manager m)).Set
            "isCheck" (Value.bool m.IsCheck))) :=
  ⟨(guard_chains_by_role exampleEnv (serviceOf [alice, checkBot, checkBot2] [])
      (request "TB" none none) protectedHandler
      (by decide) (by decide) (by decide)).1 (by decide),
   (guard_chains_by_role exampleEnv (serviceOf [alice, checkBot, checkBot2] [])
      (request "T0" none none) protectedHandler
      (by decide) (by decide) (by decide)).2 (by decide)⟩

/-! ## Login -/

theorem updatesManagers_token (db : DB) (cond : Manager) (t : String) (now : Nat)
    (ht : t ≠ "") :
    db.updatesManagers cond { Manager.zero with Token := t } now =
      { db := { db with managers := db.managers.map (fun m =>
          if m.visible && cond.whereStruct m then { m with Token := t, UpdatedAt := now }
          else m) },
        RowsAffected := (db.selectManagers cond).length } := by
  simp [DB.updatesManagers, Manager.isBlank, Manager.assign, Manager.zero, ht]

theorem ManagerLogin_success (e : Env) (s : Service) (c : Context) (f : ManagerLoginForm)
    (r : Manager) (hb : c.Body = some f) (hn : f.Name ≠ "") (hp : f.Password ≠ "")
    (hone : s.Mysql.managers.filter (fun m => m.visible && m.Name == f.Name) = [r])
    (hpw : e.CheckPassword f.Password r.Password = true) (ht : e.GenerateToken ≠ "") :
    s.ManagerLogin e c =
      ({ s with Mysql := { s.Mysql with managers := s.Mysql.managers.map (fun m =>
          if m = r then { m with Token := e.GenerateToken, UpdatedAt := e.now } else m) } },
        MakeSuccessJSON e.GenerateToken) := by
  have hiff := filter_singleton_iff hone
  have hrmem : r ∈ s.Mysql.managers.filter (fun m => m.visible && m.Name == f.Name) := by
    rw [hone]; simp
  have hrname : r.Name = f.Name := by
    have h := (List.mem_filter.mp hrmem).2
    simp at h
    exact h.2
  have hsel : s.Mysql.selectManagers { Manager.zero with Name := f.Name } = [r] := by
    rw [selectManagers_name _ _ hn, hone]
  have hfind : s.Mysql.findManager { Manager.zero with Name := f.Name } = r :=
    findManager_unique _ _ _ hsel
  have hupd := updatesManagers_token s.Mysql { Manager.zero with Name := f.Name }
    e.GenerateToken e.now ht
  rw [hsel] at hupd
  have hmap : s.Mysql.managers.map (fun m =>
        if m.visible && Manager.whereStruct { Manager.zero with Name := f.Name } m then
          { m with Token := e.GenerateToken, UpdatedAt := e.now } else m)
      = s.Mysql.managers.map (fun m =>
        if m = r then { m with Token := e.GenerateToken, UpdatedAt := e.now } else m) := by
    apply List.map_congr_left
    intro m hm
    have hbn : (f.Name == "") = false := beq_eq_false_iff_ne.mpr hn
    rw [whereStruct_name, hbn, Bool.false_or]
    by_cases hmr : m = r
    · rw [if_pos ((hiff m hm).mpr hmr), if_pos hmr]
    · rw [if_neg (fun h => hmr ((hiff m hm).mp h)), if_neg hmr]
  rw [hmap] at hupd
  simp [Manager.zero] at hfind hupd
  simp [Service.ManagerLogin, BindJSON_some c f hb hn hp, Manager.zero, hfind, hn, hpw,
    hrname, hupd]

/-- C1, the claim fails where another row holds the old token: alice and bob both hold
T0, alice is the one row named alice and her digest accepts the password, the login
succeeds with T1, which no other row holds, alice then holds T1 and bob is unchanged;
yet a request presenting T0 to `AdminAuthRequired` is not answered 401: it reaches the
handler as bob. -/
theorem ManagerLogin_old_token_shared :
    (serviceOf [alice, bob] []).Mysql.managers.filter
        (fun m => m.visible && m.Name == "alice") = [alice] ∧
    exampleEnv.CheckPassword "s3cret" alice.Password = true ∧
    (serviceOf [alice, bob] []).ManagerLogin exampleEnv
        (request "" none (some { Name := "alice", Password := "s3cret" })) =
      (serviceOf [{ alice with Token := "T1", UpdatedAt := 7 }, bob] [],
        MakeSuccessJSON "T1") ∧
    alice.Token = "T0" ∧ "T0" ≠ "T1" ∧ bob.Token ≠ "T1" ∧
    AdminAuthRequired exampleEnv protectedHandler
        (serviceOf [{ alice with Token := "T1", UpdatedAt := 7 }, bob] [])
        (request "T0" none none) =
      protectedHandler (serviceOf [{ alice with Token := "T1", UpdatedAt := 7 }, bob] [])
        (((request "T0" none none).Set "managerData" (Value.manager bob)).Set "isCheck"
          (Value.bool false)) ∧
    AdminAuthRequired exampleEnv protectedHandler
        (serviceOf [{ alice with Token := "T1", UpdatedAt := 7 }, bob] [])
        (request "T0" none none) ≠
      (serviceOf [{ alice with Token := "T1", UpdatedAt := 7 }, bob] [],
        ((request "T0" none none).JSON (MakeErrJSON 401 40100 "general.no_auth")).Abort) := by
  decide

/-- C1 as amended: when exactly one manager row has the submitted name, its digest
accepts the submitted password and the generated token `t` is non-empty, `ManagerLogin`
answers success carrying `t`; afterwards that row holds `t` (and a new `UpdatedAt`), every
other row and the table of team tokens are as before.  If no other row holds `t` (and
the primary key of the row is non-zero), a request presenting `t` to
`AdminAuthRequired` reaches the next handler as that manager;
and if the row held a non-empty token different from `t` that no other row holds, a
request presenting that old token is answered 401/40100 and aborted. -/
theorem ManagerLogin_replaces_token (e : Env) (s : Service) (c : Context)
    (f : ManagerLoginForm) (r : Manager)
    (hb : c.Body = some f) (hn : f.Name ≠ "") (hp : f.Password ≠ "")
    (hone : s.Mysql.managers.filter (fun m => m.visible && m.Name == f.Name) = [r])
    (hpw : e.CheckPassword f.Password r.Password = true) (ht : e.GenerateToken ≠ "") :
    (s.ManagerLogin e c).2 = MakeSuccessJSON e.GenerateToken ∧
    (s.ManagerLogin e c).1.Mysql.managers = s.Mysql.managers.map (fun m =>
      if m = r then { m with Token := e.GenerateToken, UpdatedAt := e.now } else m) ∧
    (s.ManagerLogin e c).1.Mysql.tokens = s.Mysql.tokens ∧
    (∀ (c1 : Context) (next : HandlerFunc), r.ID ≠ 0 →
      (∀ m ∈ s.Mysql.managers, m ≠ r → m.visible = true → m.Token ≠ e.GenerateToken) →
      c1.GetHeader "Authorization" = e.GenerateToken →
      AdminAuthRequired e next (s.ManagerLogin e c).1 c1 =
        next (s.ManagerLogin e c).1
          ((c1.Set "managerData"
            (Value.manager { r with Token := e.GenerateToken, UpdatedAt := e.now })).Set
              "isCheck" (Value.bool r.IsCheck))) ∧
    (∀ (c0 : Context) (next : HandlerFunc),
      r.Token ≠ "" → r.Token ≠ e.GenerateToken →
      (∀ m ∈ s.Mysql.managers, m ≠ r → m.visible = true → m.Token ≠ r.Token) →
      c0.GetHeader "Authorization" = r.Token →
      AdminAuthRequired e next (s.ManagerLogin e c).1 c0 =
        ((s.ManagerLogin e c).1, (c0.JSON (MakeErrJSON 401 40100
          (e.T (c0.GetString "lang") "general.no_auth" []))).Abort)) := by
  have hrun := ManagerLogin_success e s c f r hb hn hp hone hpw ht
  have hiff := filter_singleton_iff hone
  have hrmem : r ∈ s.Mysql.managers.filter (fun m => m.visible && m.Name == f.Name) := by
    rw [hone]; simp
  have hrv : r.visible = true := by
    have h := (List.mem_filter.mp hrmem).2
    simp at h
    exact h.1
  refine ⟨by rw [hrun], by rw [hrun], by rw [hrun], ?_, ?_⟩
  · intro c1 next hid hfresh hhdr
    have hsel : (s.ManagerLogin e c).1.Mysql.managers.filter
        (fun m => m.visible && m.Token == c1.GetHeader "Authorization") =
        [{ r with Token := e.GenerateToken, UpdatedAt := e.now }] := by
      rw [hrun, hhdr]
      simp only []
      rw [List.filter_map]
      have hcongr : s.Mysql.managers.filter
          ((fun m : Manager => m.visible && m.Token == e.GenerateToken) ∘
            (fun m => if m = r then { m with Token := e.GenerateToken, UpdatedAt := e.now }
              else m))
          = s.Mysql.managers.filter (fun m => m.visible && m.Name == f.Name) := by
        apply List.filter_congr
        intro m hm
        by_cases hmr : m = r
        · have hpm := (hiff m hm).mpr hmr
          rw [hpm]
          subst hmr
          simpa [Model.visible] using hrv
        · have hpm : (m.visible && m.Name == f.Name) = false := by
            cases hq : (m.visible && m.Name == f.Name)
            · rfl
            · exact absurd ((hiff m hm).mp hq) hmr
          rw [hpm]
          simp only [Function.comp, if_neg hmr]
          cases hvis : m.visible
          · simp [Model.visible] at hvis ⊢
          · have := hfresh m hm hmr hvis
            simp [this]
      rw [hcongr, hone]
      simp
    have hid1 : ({ r with Token := e.GenerateToken, UpdatedAt := e.now } : Manager).ID ≠ 0 :=
      hid
    have hne : c1.GetHeader "Authorization" ≠ "" := by rw [hhdr]; exact ht
    exact AdminAuthRequired_known e _ c1 next _ hne hsel hid1
  · intro c0 next hold hdiff hothers hhdr
    have hsel : (s.ManagerLogin e c).1.Mysql.managers.filter
        (fun m => m.visible && m.Token == c0.GetHeader "Authorization") = [] := by
      rw [hrun, hhdr]
      simp only []
      rw [List.filter_map]
      have hnil : s.Mysql.managers.filter
          ((fun m : Manager => m.visible && m.Token == r.Token) ∘
            (fun m => if m = r then { m with Token := e.GenerateToken, UpdatedAt := e.now }
              else m)) = [] := by
        apply List.filter_eq_nil_iff.mpr
        intro m hm
        by_cases hmr : m = r
        · subst hmr
          simp [Function.comp]
          intro _ heq
          exact hdiff heq.symm
        · simp only [Function.comp, if_neg hmr]
          intro hq
          simp at hq
          exact hothers m hm hmr hq.1 hq.2
      rw [hnil]
      rfl
    have hne : c0.GetHeader "Authorization" ≠ "" := by rw [hhdr]; exact hold
    exact AdminAuthRequired_unknown e _ c0 next hne hsel

/-- C1 as amended, at a concrete store: alice logs in and gets T1; her old token T0 is
then answered 401 and T1 reaches the handler as alice. -/
theorem ManagerLogin_replaces_token_witness :
    ((serviceOf [alice, checkBot] []).ManagerLogin exampleEnv
        (request "" none (some { Name := "alice", Password := "s3cret" }))).2 =
      MakeSuccessJSON "T1" ∧
    AdminAuthRequired exampleEnv protectedHandler
        ((serviceOf [alice, checkBot] []).ManagerLogin exampleEnv
          (request "" none (some { Name := "alice", Password := "s3cret" }))).1
        (request "T1" none none) =
      protectedHandler
        ((serviceOf [alice, checkBot] []).ManagerLogin exampleEnv
          (request "" none (some { Name := "alice", Password := "s3cret" }))).1
        (((request "T1" none none).Set "managerData"
          (Value.manager { alice with Token := "T1", UpdatedAt := 7 })).Set "isCheck"
            (Value.bool false)) ∧
    AdminAuthRequired exampleEnv protectedHandler
        ((serviceOf [alice, checkBot] []).ManagerLogin exampleEnv
          (request "" none (some { Name := "alice", Password := "s3cret" }))).1
        (request "T0" none none) =
      (((serviceOf [alice, checkBot] []).ManagerLogin exampleEnv
          (request "" none (some { Name := "alice", Password := "s3cret" }))).1,
        ((request "T0" none none).JSON (MakeErrJSON 401 40100 "general.no_auth")).Abort) :=
  ⟨(ManagerLogin_replaces_token exampleEnv (serviceOf [alice, checkBot] [])
      (request "" none (some { Name := "alice", Password := "s3cret" }))
      { Name := "alice", Password := "s3cret" } alice
      rfl (by decide) (by decide) (by decide) (by decide) (by decide)).1,
   (ManagerLogin_replaces_token exampleEnv (serviceOf [alice, checkBot] [])
      (request "" none (some { Name := "alice", Password := "s3cret" }))
      { Name := "alice", Password := "s3cret" } alice
      rfl (by decide) (by decide) (by decide) (by decide) (by decide)).2.2.2.1
      (request "T1" none none) protectedHandler (by decide) (by decide) (by decide),
   (ManagerLogin_replaces_token exampleEnv (serviceOf [alice, checkBot] [])
      (request "" none (some { Name := "alice", Password := "s3cret" }))
      { Name := "alice", Password := "s3cret" } alice
      rfl (by decide) (by decide) (by decide) (by decide) (by decide)).2.2.2.2
      (request "T0" none none) protectedHandler (by decide) (by decide) (by decide)
      (by decide)⟩

/-! ## The shape of each operation on the table of managers -/

theorem ManagerLogout_shape (e : Env) (s : Service) (c : Context) :
    (s.ManagerLogout e c).1.Mysql.managers = s.Mysql.managers :=
  ManagerLogout_keeps_managers e s c

theorem ManagerLogin_shape (e : Env) (s : Service) (c : Context) :
    (s.ManagerLogin e c).1.Mysql.managers = s.Mysql.managers ∨
    ∃ cond : Manager,
      (s.Mysql.updatesManagers cond { Manager.zero with Token := e.GenerateToken }
        e.now).RowsAffected = 1 ∧
      (s.ManagerLogin e c).1.Mysql.managers =
        (s.Mysql.updatesManagers cond { Manager.zero with Token := e.GenerateToken }
          e.now).db.managers := by
  unfold Service.ManagerLogin
  split
  · exact Or.inl rfl
  · dsimp only
    split
    · split
      · exact Or.inl rfl
      · rename_i hrows
        refine Or.inr ⟨_, ?_, rfl⟩
        simpa using hrows
    · exact Or.inl rfl

theorem RefreshManagerToken_shape (e : Env) (s : Service) (c : Context) :
    (s.RefreshManagerToken e c).1.Mysql.managers = s.Mysql.managers ∨
    ∃ cond : Manager,
      (s.Mysql.updatesManagers cond { Manager.zero with Token := e.GenerateToken }
        e.now).RowsAffected = 1 ∧
      (s.RefreshManagerToken e c).1.Mysql.managers =
        (s.Mysql.updatesManagers cond { Manager.zero with Token := e.GenerateToken }
          e.now).db.managers := by
  unfold Service.RefreshManagerToken
  split
  · exact Or.inl rfl
  · split
    · exact Or.inl rfl
    · simp only []
      split
      · exact Or.inl rfl
      · rename_i hrows
        refine Or.inr ⟨_, ?_, rfl⟩
        simpa using hrows

theorem ChangeManagerPassword_shape (e : Env) (s : Service) (c : Context) :
    (s.ChangeManagerPassword e c).1.Mysql.managers = s.Mysql.managers ∨
    ∃ cond : Manager,
      (s.ChangeManagerPassword e c).1.Mysql.managers =
        (s.Mysql.updatesManagers cond { Manager.zero with Password := e.AddSalt e.randstr }
          e.now).db.managers := by
  unfold Service.ChangeManagerPassword
  split
  · exact Or.inl rfl
  · split
    · exact Or.inl rfl
    · simp only []
      split
      · exact Or.inl rfl
      · exact Or.inr ⟨_, rfl⟩

theorem DeleteManager_shape (e : Env) (s : Service) (c : Context) :
    (s.DeleteManager e c).1.Mysql.managers = s.Mysql.managers ∨
    ∃ id : Int,
      (s.DeleteManager e c).1.Mysql.managers =
        (s.Mysql.deleteManagersWhereID id e.now).db.managers := by
  unfold Service.DeleteManager
  split
  · exact Or.inl rfl
  · split
    · exact Or.inl rfl
    · simp only []
      split
      · exact Or.inl rfl
      · exact Or.inr ⟨_, rfl⟩

theorem NewManager_shape (e : Env) (s : Service) (c : Context) :
    (s.NewManager e c).1.Mysql.managers = s.Mysql.managers ∨
    ∃ f : ManagerLoginForm, c.BindJSON = some f ∧
      (s.Mysql.findManager { Manager.zero with Name := f.Name }).ID = 0 ∧
      (s.NewManager e c).1.Mysql.managers =
        s.Mysql.managers ++
          [{ Manager.zero with
              ID := s.Mysql.nextManagerID, CreatedAt := e.now, UpdatedAt := e.now,
              Name := f.Name, Password := e.AddSalt f.Password }] := by
  unfold Service.NewManager
  split
  · exact Or.inl rfl
  · rename_i f hf
    dsimp only
    split
    · exact Or.inl rfl
    · rename_i hzero
      split
      · exact Or.inl rfl
      · refine Or.inr ⟨f, hf, ?_, rfl⟩
        simpa using hzero

/-! ## Invariants of the table of managers -/

theorem visible_filter_map (l : List Manager) (g : Manager → Manager)
    (hv : ∀ m, (g m).visible = m.visible) :
    (l.map g).filter (fun m => m.visible) = (l.filter (fun m => m.visible)).map g := by
  rw [List.filter_map]
  congr 1
  apply List.filter_congr
  intro m _
  simp [Function.comp, hv]

theorem updatesManagers_shape (db : DB) (cond v : Manager) (now : Nat)
    (hN : v.Name = "") (hD : v.DeletedAt = none) :
    ∃ g : Manager → Manager, (∀ m, (g m).Name = m.Name) ∧
      (∀ m, (g m).visible = m.visible) ∧ (v.Token = "" → ∀ m, (g m).Token = m.Token) ∧
      (db.updatesManagers cond v now).db.managers = db.managers.map g := by
  by_cases hb : v.isBlank = true
  · refine ⟨fun m => m, fun _ => rfl, fun _ => rfl, fun _ _ => rfl, ?_⟩
    simp [DB.updatesManagers, hb]
  · refine ⟨fun m => if m.visible && cond.whereStruct m then v.assign m now else m,
      ?_, ?_, ?_, ?_⟩
    · intro m
      dsimp only
      split <;> simp [Manager.assign, hN]
    · intro m
      dsimp only
      split <;> simp [Manager.assign, hD, Model.visible]
    · intro hT m
      dsimp only
      split <;> simp [Manager.assign, hT]
    · simp [DB.updatesManagers, hb]

theorem nameUnique_map (l : List Manager) (g : Manager → Manager)
    (hn : ∀ m, (g m).Name = m.Name) (hv : ∀ m, (g m).visible = m.visible)
    (h : (l.filter (fun m => m.visible)).Pairwise (fun a b => a.Name ≠ b.Name)) :
    ((l.map g).filter (fun m => m.visible)).Pairwise (fun a b => a.Name ≠ b.Name) := by
  rw [visible_filter_map l g hv, List.pairwise_map]
  exact h.imp (fun hab => by rw [hn, hn]; exact hab)

theorem tokenUnique_map (l : List Manager) (g : Manager → Manager)
    (ht : ∀ m, (g m).Token = m.Token) (hv : ∀ m, (g m).visible = m.visible)
    (h : (l.filter (fun m => m.visible)).Pairwise
      (fun a b => a.Token = "" ∨ a.Token ≠ b.Token)) :
    ((l.map g).filter (fun m => m.visible)).Pairwise
      (fun a b => a.Token = "" ∨ a.Token ≠ b.Token) := by
  rw [visible_filter_map l g hv, List.pairwise_map]
  exact h.imp (fun hab => by rw [ht, ht]; exact hab)

theorem pairwise_token_update (L : List Manager) (p : Manager → Bool)
    (g : Manager → Manager) (t : String) (hg : ∀ m, (g m).Token = t)
    (hR : L.Pairwise (fun a b => a.Token = "" ∨ a.Token ≠ b.Token))
    (hfresh : ∀ m ∈ L, m.Token ≠ t) (hone : (L.filter p).length ≤ 1) :
    (L.map (fun m => if p m then g m else m)).Pairwise
      (fun a b => a.Token = "" ∨ a.Token ≠ b.Token) := by
  induction L with
  | nil => simp
  | cons a L ih =>
    rw [List.pairwise_cons] at hR
    have hfreshL : ∀ m ∈ L, m.Token ≠ t := fun m hm => hfresh m (List.mem_cons_of_mem _ hm)
    have honeL : (L.filter p).length ≤ 1 := by
      by_cases hpa : p a = true
      · rw [List.filter_cons_of_pos hpa, List.length_cons] at hone
        omega
      · rw [List.filter_cons_of_neg hpa] at hone
        exact hone
    rw [List.map_cons, List.pairwise_cons]
    refine ⟨?_, ih hR.2 hfreshL honeL⟩
    intro b1 hb1
    obtain ⟨b, hb, rfl⟩ := List.mem_map.mp hb1
    by_cases hpa : p a = true
    · have hnil : L.filter p = [] := by
        rw [List.filter_cons_of_pos hpa, List.length_cons] at hone
        exact List.length_eq_zero.mp (by omega)
      have hpb : ¬ p b = true := (List.filter_eq_nil_iff.mp hnil) b hb
      rw [if_pos hpa, if_neg hpb, hg]
      exact Or.inr (fun h => hfreshL b hb h.symm)
    · rw [if_neg hpa]
      by_cases hpb : p b = true
      · rw [if_pos hpb, hg]
        exact Or.inr (hfresh a (List.mem_cons_self _ _))
      · rw [if_neg hpb]
        exact hR.1 b hb

theorem tokenUnique_updates_token (db : DB) (cond : Manager) (t : String) (now : Nat)
    (ht : t ≠ "") (hinv : db.tokenUnique)
    (hfresh : ∀ m ∈ db.managers, m.visible = true → m.Token ≠ t)
    (hrows : (db.updatesManagers cond { Manager.zero with Token := t } now).RowsAffected = 1) :
    ((db.updatesManagers cond { Manager.zero with Token := t } now).db.managers.filter
      (fun m => m.visible)).Pairwise (fun a b => a.Token = "" ∨ a.Token ≠ b.Token) := by
  rw [updatesManagers_token _ _ _ _ ht] at hrows ⊢
  dsimp only at hrows ⊢
  rw [visible_filter_map]
  · apply pairwise_token_update _ (fun m => m.visible && cond.whereStruct m)
      (fun m => { m with Token := t, UpdatedAt := now }) t (fun _ => rfl) hinv
    · intro m hm
      have hmem := List.mem_filter.mp hm
      exact hfresh m hmem.1 hmem.2
    · rw [List.filter_filter]
      have hcongr : db.managers.filter
          (fun a => (a.visible && cond.whereStruct a) && a.visible) =
          db.selectManagers cond := by
        unfold DB.selectManagers
        apply List.filter_congr
        intro m _
        cases m.visible <;> simp
      rw [hcongr, hrows]
  · intro m
    dsimp only
    split <;> simp [Model.visible]

theorem visible_delete_sublist (db : DB) (id : Int) (now : Nat) :
    ((db.deleteManagersWhereID id now).db.managers.filter (fun m => m.visible)).Sublist
      (db.managers.filter (fun m => m.visible)) := by
  unfold DB.deleteManagersWhereID
  dsimp only
  rw [List.filter_map]
  have hsame : ∀ m ∈ db.managers.filter ((fun m : Manager => m.visible) ∘ (fun m =>
        if m.visible && ((m.ID : Int) == id) then { m with DeletedAt := some now } else m)),
      (fun m : Manager =>
        if m.visible && ((m.ID : Int) == id) then { m with DeletedAt := some now } else m) m
        = (fun m => m) m := by
    intro m hm
    have hp := (List.mem_filter.mp hm).2
    dsimp only [Function.comp] at hp ⊢
    split
    · rename_i hc
      rw [if_pos hc] at hp
      simp [Model.visible] at hp
    · rfl
  rw [List.map_congr_left hsame]
  simp only [List.map_id_fun, id_eq, List.map_id']
  apply List.monotone_filter_right
  intro m hp
  dsimp only [Function.comp] at hp
  split at hp
  · simp [Model.visible] at hp
  · exact hp

theorem findManager_zero_id (db : DB) (cond : Manager)
    (hid : ∀ m ∈ db.managers, m.ID ≠ 0) (h0 : (db.findManager cond).ID = 0) :
    ∀ m ∈ db.managers, ¬ (m.visible && cond.whereStruct m) = true := by
  intro m hm hp
  exact hid _ (findManager_mem db cond ⟨m, hm, hp⟩).1 h0

theorem BindJSON_name_ne (c : Context) (f : ManagerLoginForm) (h : c.BindJSON = some f) :
    f.Name ≠ "" := by
  unfold Context.BindJSON at h
  split at h
  · exact absurd h (by simp)
  · rename_i g _
    split at h
    · exact absurd h (by simp)
    · rename_i hne
      have hfg : g = f := by simpa using h
      subst hfg
      intro hname
      apply hne
      simp [hname]

theorem tokenUnique_of_managers_eq (db1 db2 : DB) (h : db2.managers = db1.managers)
    (hinv : db1.tokenUnique) : db2.tokenUnique := by
  unfold DB.tokenUnique at hinv ⊢
  rw [h]
  exact hinv

theorem nameUnique_of_managers_eq (db1 db2 : DB) (h : db2.managers = db1.managers)
    (hinv : db1.nameUnique) : db2.nameUnique := by
  unfold DB.nameUnique at hinv ⊢
  rw [h]
  exact hinv

/-- C6: token uniqueness on the table of managers is kept by every manager operation,
for any request, provided the token `GenerateToken` yields during the call is non-empty
and held by no row. -/
theorem token_uniqueness_invariant (op : Op) (e : Env) (s : Service) (c : Context)
    (hinv : s.Mysql.tokenUnique) (ht : e.GenerateToken ≠ "")
    (hfresh : ∀ m ∈ s.Mysql.managers, m.visible = true → m.Token ≠ e.GenerateToken) :
    (op.run s e c).1.Mysql.tokenUnique := by
  cases op with
  | ManagerLogin =>
    rcases ManagerLogin_shape e s c with h | ⟨cond, hrows, h⟩
    · exact tokenUnique_of_managers_eq _ _ h hinv
    · unfold DB.tokenUnique Op.run
      dsimp only
      rw [h]
      exact tokenUnique_updates_token _ cond _ _ ht hinv hfresh hrows
  | ManagerLogout =>
    exact tokenUnique_of_managers_eq _ _ (ManagerLogout_shape e s c) hinv
  | NewManager =>
    rcases NewManager_shape e s c with h | ⟨f, _, _, h⟩
    · exact tokenUnique_of_managers_eq _ _ h hinv
    · unfold DB.tokenUnique Op.run at *
      dsimp only
      rw [h, List.filter_append, List.pairwise_append]
      refine ⟨hinv, ?_, ?_⟩
      · exact (List.pairwise_singleton _ _).filter _
      · intro a _ b hb
        have hbm := (List.mem_filter.mp hb).1
        have hbz : b.Token = "" := by
          rw [List.mem_singleton] at hbm
          rw [hbm]
          rfl
        rw [hbz]
        by_cases ha : a.Token = ""
        · exact Or.inl ha
        · exact Or.inr ha
  | RefreshManagerToken =>
    rcases RefreshManagerToken_shape e s c with h | ⟨cond, hrows, h⟩
    · exact tokenUnique_of_managers_eq _ _ h hinv
    · unfold DB.tokenUnique Op.run
      dsimp only
      rw [h]
      exact tokenUnique_updates_token _ cond _ _ ht hinv hfresh hrows
  | ChangeManagerPassword =>
    rcases ChangeManagerPassword_shape e s c with h | ⟨cond, h⟩
    · exact tokenUnique_of_managers_eq _ _ h hinv
    · obtain ⟨g, _, hv, hk, hg⟩ := updatesManagers_shape s.Mysql cond
        { Manager.zero with Password := e.AddSalt e.randstr } e.now rfl rfl
      unfold DB.tokenUnique Op.run
      dsimp only
      rw [h, hg]
      exact tokenUnique_map _ g (hk rfl) hv hinv
  | DeleteManager =>
    rcases DeleteManager_shape e s c with h | ⟨id, h⟩
    · exact tokenUnique_of_managers_eq _ _ h hinv
    · unfold DB.tokenUnique Op.run
      dsimp only
      rw [h]
      exact List.Pairwise.sublist (visible_delete_sublist _ _ _) hinv

/-- C6 at a concrete store: alice holds T0, the check-bot TB; after the token of the
check-bot is refreshed to T1 no two rows share a token. -/
theorem token_uniqueness_invariant_witness :
    (serviceOf [alice, checkBot] []).Mysql.tokenUnique ∧
    ((Op.RefreshManagerToken.run (serviceOf [alice, checkBot] []) exampleEnv
      (request "T0" (some "3") none)).1.Mysql.managers.map (fun m => m.Token) =
        ["T0", "T1"]) ∧
    (Op.RefreshManagerToken.run (serviceOf [alice, checkBot] []) exampleEnv
      (request "T0" (some "3") none)).1.Mysql.tokenUnique :=
  ⟨by decide, by decide,
    token_uniqueness_invariant Op.RefreshManagerToken exampleEnv
      (serviceOf [alice, checkBot] []) (request "T0" (some "3") none)
      (by decide) (by decide) (by decide)⟩

/-- C10: name uniqueness on the table of managers is kept by every manager operation,
for any request; and `NewManager` either leaves the table as it was or appends one row,
which it does only when the body binds to a form whose name no row has, the new row
carrying that name and an empty token. -/
theorem name_uniqueness_invariant (op : Op) (e : Env) (s : Service) (c : Context)
    (hid : ∀ m ∈ s.Mysql.managers, m.ID ≠ 0) (hinv : s.Mysql.nameUnique) :
    (op.run s e c).1.Mysql.nameUnique ∧
    ((s.NewManager e c).1.Mysql.managers = s.Mysql.managers ∨
      ∃ f : ManagerLoginForm, c.BindJSON = some f ∧
        (∀ m ∈ s.Mysql.managers, m.visible = true → m.Name ≠ f.Name) ∧
        ∃ row : Manager, row.Name = f.Name ∧ row.Token = "" ∧
          (s.NewManager e c).1.Mysql.managers = s.Mysql.managers ++ [row]) := by
  have hnew : (s.NewManager e c).1.Mysql.managers = s.Mysql.managers ∨
      ∃ f : ManagerLoginForm, c.BindJSON = some f ∧
        (∀ m ∈ s.Mysql.managers, m.visible = true → m.Name ≠ f.Name) ∧
        ∃ row : Manager, row.Name = f.Name ∧ row.Token = "" ∧
          (s.NewManager e c).1.Mysql.managers = s.Mysql.managers ++ [row] := by
    rcases NewManager_shape e s c with h | ⟨f, hf, hzero, h⟩
    · exact Or.inl h
    · refine Or.inr ⟨f, hf, ?_, _, rfl, rfl, h⟩
      intro m hm hv hname
      have hno := findManager_zero_id s.Mysql _ hid hzero m hm
      apply hno
      have hb : (f.Name == "") = false := beq_eq_false_iff_ne.mpr (BindJSON_name_ne c f hf)
      rw [whereStruct_name, hb, Bool.false_or, hv, hname]
      simp
  refine ⟨?_, hnew⟩
  cases op with
  | ManagerLogin =>
    rcases ManagerLogin_shape e s c with h | ⟨cond, _, h⟩
    · exact nameUnique_of_managers_eq _ _ h hinv
    · obtain ⟨g, hn, hv, _, hg⟩ := updatesManagers_shape s.Mysql cond
        { Manager.zero with Token := e.GenerateToken } e.now rfl rfl
      unfold DB.nameUnique Op.run
      dsimp only
      rw [h, hg]
      exact nameUnique_map _ g hn hv hinv
  | ManagerLogout =>
    exact nameUnique_of_managers_eq _ _ (ManagerLogout_shape e s c) hinv
  | NewManager =>
    rcases hnew with h | ⟨f, _, hfree, row, hrn, _, h⟩
    · exact nameUnique_of_managers_eq _ _ h hinv
    · unfold DB.nameUnique Op.run at *
      dsimp only
      rw [h, List.filter_append, List.pairwise_append]
      refine ⟨hinv, ?_, ?_⟩
      · exact (List.pairwise_singleton _ _).filter _
      · intro a ha b hb
        have hbm := (List.mem_filter.mp hb).1
        rw [List.mem_singleton] at hbm
        have ham := List.mem_filter.mp ha
        rw [hbm, hrn]
        exact hfree a ham.1 ham.2
  | RefreshManagerToken =>
    rcases RefreshManagerToken_shape e s c with h | ⟨cond, _, h⟩
    · exact nameUnique_of_managers_eq _ _ h hinv
    · obtain ⟨g, hn, hv, _, hg⟩ := updatesManagers_shape s.Mysql cond
        { Manager.zero with Token := e.GenerateToken } e.now rfl rfl
      unfold DB.nameUnique Op.run
      dsimp only
      rw [h, hg]
      exact nameUnique_map _ g hn hv hinv
  | ChangeManagerPassword =>
    rcases ChangeManagerPassword_shape e s c with h | ⟨cond, h⟩
    · exact nameUnique_of_managers_eq _ _ h hinv
    · obtain ⟨g, hn, hv, _, hg⟩ := updatesManagers_shape s.Mysql cond
        { Manager.zero with Password := e.AddSalt e.randstr } e.now rfl rfl
      unfold DB.nameUnique Op.run
      dsimp only
      rw [h, hg]
      exact nameUnique_map _ g hn hv hinv
  | DeleteManager =>
    rcases DeleteManager_shape e s c with h | ⟨id, h⟩
    · exact nameUnique_of_managers_eq _ _ h hinv
    · unfold DB.nameUnique Op.run
      dsimp only
      rw [h]
      exact List.Pairwise.sublist (visible_delete_sublist _ _ _) hinv

/-- C10 at a concrete store: creating dave next to alice keeps the names distinct, and
the new row has the next id and no token. -/
theorem name_uniqueness_invariant_witness :
    (serviceOf [alice] []).Mysql.nameUnique ∧
    ((Op.NewManager.run (serviceOf [alice] []) exampleEnv
      (request "T0" none (some { Name := "dave", Password := "pw" }))).1.Mysql.managers =
        [alice, { Manager.zero with
          ID := 2, CreatedAt := 7, UpdatedAt := 7, Name := "dave", Password := "salt:pw" }]) ∧
    (Op.NewManager.run (serviceOf [alice] []) exampleEnv
      (request "T0" none (some { Name := "dave", Password := "pw" }))).1.Mysql.nameUnique :=
  ⟨by decide, by decide,
    (name_uniqueness_invariant Op.NewManager exampleEnv (serviceOf [alice] [])
      (request "T0" none (some { Name := "dave", Password := "pw" }))
      (by decide) (by decide)).1⟩

/-! ## Primary keys -/

theorem updatesManagers_ids (db : DB) (cond v : Manager) (now : Nat) (h : v.ID = 0) :
    ∀ m ∈ (db.updatesManagers cond v now).db.managers, ∃ m0 ∈ db.managers, m.ID = m0.ID := by
  intro m hm
  unfold DB.updatesManagers at hm
  split at hm
  · exact ⟨m, hm, rfl⟩
  · dsimp only at hm
    obtain ⟨m0, hm0, rfl⟩ := List.mem_map.mp hm
    refine ⟨m0, hm0, ?_⟩
    split
    · simp [Manager.assign, h]
    · rfl

theorem deleteManagers_ids (db : DB) (id : Int) (now : Nat) :
    ∀ m ∈ (db.deleteManagersWhereID id now).db.managers,
      ∃ m0 ∈ db.managers, m.ID = m0.ID := by
  intro m hm
  unfold DB.deleteManagersWhereID at hm
  dsimp only at hm
  obtain ⟨m0, hm0, rfl⟩ := List.mem_map.mp hm
  refine ⟨m0, hm0, ?_⟩
  split <;> rfl

/-- The primary keys of `managers` stay non-zero under every manager operation: updates
and deletes keep the key of a row, and a created row gets the next key, which is at
least one. -/
theorem primary_keys_invariant (op : Op) (e : Env) (s : Service) (c : Context)
    (hid : ∀ m ∈ s.Mysql.managers, m.ID ≠ 0) :
    ∀ m ∈ (op.run s e c).1.Mysql.managers, m.ID ≠ 0 := by
  cases op with
  | ManagerLogin =>
    rcases ManagerLogin_shape e s c with h | ⟨cond, _, h⟩
    · intro m hm
      exact hid m (by rw [← h]; exact hm)
    · intro m hm
      obtain ⟨m0, hm0, heq⟩ := updatesManagers_ids s.Mysql cond
        { Manager.zero with Token := e.GenerateToken } e.now rfl m (by rw [← h]; exact hm)
      rw [heq]
      exact hid m0 hm0
  | ManagerLogout =>
    intro m hm
    exact hid m (by rw [← ManagerLogout_shape e s c]; exact hm)
  | NewManager =>
    rcases NewManager_shape e s c with h | ⟨f, _, _, h⟩
    · intro m hm
      exact hid m (by rw [← h]; exact hm)
    · intro m hm
      have hmem : m ∈ s.Mysql.managers ++
          [{ Manager.zero with
              ID := s.Mysql.nextManagerID, CreatedAt := e.now, UpdatedAt := e.now,
              Name := f.Name, Password := e.AddSalt f.Password }] := by
        rw [← h]; exact hm
      rcases List.mem_append.mp hmem with h1 | h1
      · exact hid m h1
      · rw [List.mem_singleton] at h1
        rw [h1]
        simp [DB.nextManagerID]
  | RefreshManagerToken =>
    rcases RefreshManagerToken_shape e s c with h | ⟨cond, _, h⟩
    · intro m hm
      exact hid m (by rw [← h]; exact hm)
    · intro m hm
      obtain ⟨m0, hm0, heq⟩ := updatesManagers_ids s.Mysql cond
        { Manager.zero with Token := e.GenerateToken } e.now rfl m (by rw [← h]; exact hm)
      rw [heq]
      exact hid m0 hm0
  | ChangeManagerPassword =>
    rcases ChangeManagerPassword_shape e s c with h | ⟨cond, h⟩
    · intro m hm
      exact hid m (by rw [← h]; exact hm)
    · intro m hm
      obtain ⟨m0, hm0, heq⟩ := updatesManagers_ids s.Mysql cond
        { Manager.zero with Password := e.AddSalt e.randstr } e.now rfl m
        (by rw [← h]; exact hm)
      rw [heq]
      exact hid m0 hm0
  | DeleteManager =>
    rcases DeleteManager_shape e s c with h | ⟨id, h⟩
    · intro m hm
      exact hid m (by rw [← h]; exact hm)
    · intro m hm
      obtain ⟨m0, hm0, heq⟩ := deleteManagers_ids s.Mysql id e.now m (by rw [← h]; exact hm)
      rw [heq]
      exact hid m0 hm0

end Cardinal
